import Mathlib

/-!
Verification development for the `ip nexthop` controller (ip/ipnexthop.c).

The C source is shallowly embedded: machine integers become `Nat` with
explicit `% 2^w` where the C arithmetic can wrap, fallible paths
(`invarg`, `exit`, error returns) become `Except`/`Option`, the netlink
attribute stream becomes a typed list of `(type, value)` pairs, and the
process-global `filter` struct becomes an explicit `NhFilter` value
threaded through the calls.  External collaborators that are not part of the
repository (the rtnetlink transport, the kernel side of dump/delete,
device-name resolution and tokenization) are modelled from the spec and
are marked as such in their doc comments.
-/

/-! ## Protocol constants (linux/rtnetlink.h, linux/nexthop.h, sys/socket.h) -/

def AF_UNSPEC : Nat := 0
def AF_INET : Nat := 2
def AF_INET6 : Nat := 10

def RTM_NEWNEXTHOP : Nat := 104
def RTM_DELNEXTHOP : Nat := 105
def RTM_GETNEXTHOP : Nat := 106
def RTM_NEWNEXTHOPBUCKET : Nat := 116
def RTM_DELNEXTHOPBUCKET : Nat := 117
def RTM_GETNEXTHOPBUCKET : Nat := 118

def RTNH_F_ONLINK : Nat := 4

/-- Nexthop attribute types from the (patched) linux/nexthop.h used by this
tree.  Only distinctness of the values matters for the development. -/
def NHA_ID : Nat := 1
def NHA_GROUP : Nat := 2
def NHA_GROUP_TYPE : Nat := 3
def NHA_BLACKHOLE : Nat := 4
def NHA_OIF : Nat := 5
def NHA_GATEWAY : Nat := 6
def NHA_ENCAP_TYPE : Nat := 7
def NHA_ENCAP : Nat := 8
def NHA_GROUPS : Nat := 9
def NHA_MASTER : Nat := 10
def NHA_FDB : Nat := 11
def NHA_RES_GROUP : Nat := 12
def NHA_RES_BUCKET : Nat := 13
def NHA_UNREACHABLE : Nat := 14
def NHA_PROHIBIT : Nat := 15

def NHA_RES_GROUP_BUCKETS : Nat := 1
def NHA_RES_GROUP_IDLE_TIMER : Nat := 2
def NHA_RES_GROUP_UNBALANCED_TIMER : Nat := 3
def NHA_RES_GROUP_UNBALANCED_TIME : Nat := 4

def NHA_RES_BUCKET_INDEX : Nat := 1
def NHA_RES_BUCKET_IDLE_TIME : Nat := 2
def NHA_RES_BUCKET_NH_ID : Nat := 3

def NEXTHOP_GRP_TYPE_MPATH : Nat := 0
def NEXTHOP_GRP_TYPE_RES : Nat := 1

/-- Value of `UINT_MAX`: `get_unsigned` rejects parsed values above it. -/
def UINT_MAX : Nat := 2 ^ 32 - 1

/-- Value of `~0UL` on the LP64 platforms iproute2 targets (64-bit Linux):
`unsigned long` is 64 bits wide there. -/
def ULONG_MAX : Nat := 2 ^ 64 - 1

/-- Modulus of 32-bit C arithmetic (`unsigned int` multiplication wraps). -/
def U32_MOD : Nat := 2 ^ 32

/-! ## Numeric token parsing

`get_unsigned`/`get_u16` live in lib/utils.c, outside this repository's
sources.  Modelled from the spec: a "malformed numeric token" is a
user-input error (§7); a well-formed decimal token parses to its value,
rejected when it exceeds the C type's range.  (The C parser also accepts
hex/octal prefixes via strtoul base 0; the claims only use decimal
tokens.) -/

/-- Numeric value of a list of decimal digit characters. -/
def decValue (cs : List Char) : Nat :=
  cs.foldl (fun acc c => acc * 10 + (c.toNat - 48)) 0

/-- Modelled from the spec: numeric token parser used for u32 values
(lib/utils.c `get_unsigned`, not part of src/).  Rejects empty or
non-decimal tokens and values above `UINT_MAX`. -/
def get_unsigned (cs : List Char) : Option Nat :=
  if cs.isEmpty ∨ ¬ cs.all Char.isDigit then none
  else if decValue cs ≤ UINT_MAX then some (decValue cs) else none

/-- Modelled from the spec: numeric token parser used for u16 values
(lib/utils.c `get_u16`, not part of src/). -/
def get_u16 (cs : List Char) : Option Nat :=
  if cs.isEmpty ∨ ¬ cs.all Char.isDigit then none
  else if decValue cs ≤ 65535 then some (decValue cs) else none

/-- Split a character list at every occurrence of a separator, the way
the `strchr`/advance loop of `add_nh_group_attr` walks its argument; the
result always has one segment more than there are separators. -/
def splitOnChar (c : Char) : List Char → List (List Char)
  | [] => [[]]
  | x :: xs =>
    if x = c then [] :: splitOnChar c xs
    else
      match splitOnChar c xs with
      | [] => [[x]]
      | seg :: rest => (x :: seg) :: rest

/-- Split a character list at the first occurrence of a separator
(`strchr`): the part before it, and the part after it when present. -/
def splitFirstChar (c : Char) : List Char → List Char × Option (List Char)
  | [] => ([], none)
  | x :: xs =>
    if x = c then ([], some xs)
    else
      let r := splitFirstChar c xs
      (x :: r.1, r.2)

/-! ## Attribute values

A netlink attribute stream is modelled as a list of `(type, value)`
pairs; nesting is a constructor, and the `struct nexthop_grp` array
payload of `NHA_GROUP` is kept typed. -/

/-- One `struct nexthop_grp` entry: `id` is the member nexthop id and
`weight` is the on-wire 8-bit weight field (user weight minus one). -/
structure NexthopGrp where
  id : Nat
  weight : Nat

inductive AttrVal where
  | u16 (v : Nat)
  | u32 (v : Nat)
  | u64 (v : Nat)
  | flag
  | bytes (bs : List Nat)
  | grps (gs : List NexthopGrp)
  | nest (as : List (Nat × AttrVal))

/-- First-occurrence lookup of an attribute type, mirroring
`parse_rtattr_flags` (lib/libnetlink.c keeps the first attribute of each
type: later duplicates are ignored). -/
def lookupAttr (attrs : List (Nat × AttrVal)) (t : Nat) : Option AttrVal :=
  (attrs.find? (fun a => a.1 == t)).map (fun a => a.2)

/-- Payload extraction mirroring `rta_getattr_u32` (reads the 32-bit
payload; on a typed value anything else is out of shape and reads 0). -/
def rta_getattr_u32 : AttrVal → Nat
  | .u32 v => v
  | _ => 0

def rta_getattr_u16 : AttrVal → Nat
  | .u16 v => v
  | _ => 0

def rta_getattr_u64 : AttrVal → Nat
  | .u64 v => v
  | _ => 0

/-! ## GroupSpecParser: add_nh_group_attr (ip/ipnexthop.c:461) -/

inductive GroupErr where
  | invalidGroup
  | invalidWeight

/-- Weight validation and wire encoding from the body of
`add_nh_group_attr`: `w == 0 || w > 256` is rejected with
invarg("weight is invalid"), an accepted weight is stored as `w - 1`. -/
def nh_group_weight (w : Nat) : Except GroupErr Nat :=
  if w = 0 ∨ w > 256 then .error .invalidWeight else .ok (w - 1)

/-- One `id[,weight]` segment of the group list.  The C code splits the
segment at the first comma (`strchr(argv, ',')`), parses the id with
`get_unsigned`, and defaults the wire weight to 0 (user weight 1, from
`calloc` zero-fill) when no comma is present. -/
def parseGroupSeg (seg : List Char) : Except GroupErr NexthopGrp :=
  let p := splitFirstChar ',' seg
  match get_unsigned p.1 with
  | none => .error .invalidGroup
  | some i =>
    match p.2 with
    | none => .ok ⟨i, 0⟩
    | some wTok =>
      match get_unsigned wTok with
      | none => .error .invalidWeight
      | some w => (nh_group_weight w).map (fun wv => ⟨i, wv⟩)

/-- Effectful map over a list, short-circuiting on the first error; the
loop of `add_nh_group_attr` processes the '/'-separated segments in
input order exactly like this. -/
def mapME (f : α → Except ε β) : List α → Except ε (List β)
  | [] => .ok []
  | x :: xs =>
    match f x with
    | .error e => .error e
    | .ok y =>
      match mapME f xs with
      | .error e => .error e
      | .ok ys => .ok (y :: ys)

/-- Embedding of `add_nh_group_attr` (ip/ipnexthop.c:461): an empty
argument makes `count == 0` (error), otherwise the segments between '/'
separators are parsed left to right, preserving input order. -/
def add_nh_group_attr (s : String) : Except GroupErr (List NexthopGrp) :=
  if s.data.isEmpty then .error .invalidGroup
  else mapME parseGroupSeg (splitOnChar '/' s.data)

/-! ## Decode side of groups: print_nh_group (ip/ipnexthop.c:215) -/

/-- One printed group member: the weight field is emitted only when the
wire weight is nonzero, and then as `wire + 1`. -/
structure PrintedMember where
  id : Nat
  weight : Option Nat

/-- The weight a printed member denotes: an absent weight field means the
default weight 1. -/
def memberWeight (m : PrintedMember) : Nat := m.weight.getD 1

inductive GroupOut where
  | invalid
  | members (ms : List PrintedMember)

def printMember (g : NexthopGrp) : PrintedMember :=
  ⟨g.id, if g.weight ≠ 0 then some (g.weight + 1) else none⟩

/-- Embedding of `print_nh_group` (ip/ipnexthop.c:215): an empty payload
prints the invalid-group marker, otherwise the members are printed in
wire order with `weight + 1` shown for nonzero wire weights. -/
def print_nh_group (gs : List NexthopGrp) : GroupOut :=
  if gs.length = 0 then .invalid else .members (gs.map printMember)

/-! ## GroupSpecParser: resilient parameters (ip/ipnexthop.c:527) -/

inductive ResErr where
  | missarg
  | invalidBuckets
  | invalidIdleTimer
  | invalidUnbalancedTimer

/-- Embedding of the token loop of `parse_nh_group_type_res`
(ip/ipnexthop.c:541-574): recognized sub-clauses append one attribute
each; the timer guard is the literal C test `v >= ~0UL / 100` and the
emitted tick count is the 32-bit product `v * 100` (wrapping, as the C
`unsigned int` multiplication does).  The first unrecognized token stops
the loop and is returned unconsumed. -/
def resLoop : List String → Except ResErr (List (Nat × AttrVal) × List String)
  | [] => .ok ([], [])
  | "buckets" :: rest =>
    match rest with
    | [] => .error .missarg
    | v :: rest2 =>
      match get_u16 v.data with
      | none => .error .invalidBuckets
      | some b =>
        match resLoop rest2 with
        | .error e => .error e
        | .ok (attrs, leftover) =>
          .ok ((NHA_RES_GROUP_BUCKETS, .u16 b) :: attrs, leftover)
  | "idle_timer" :: rest =>
    match rest with
    | [] => .error .missarg
    | v :: rest2 =>
      match get_unsigned v.data with
      | none => .error .invalidIdleTimer
      | some t =>
        if t ≥ ULONG_MAX / 100 then .error .invalidIdleTimer
        else
          match resLoop rest2 with
          | .error e => .error e
          | .ok (attrs, leftover) =>
            .ok ((NHA_RES_GROUP_IDLE_TIMER, .u32 (t * 100 % U32_MOD)) :: attrs,
                 leftover)
  | "unbalanced_timer" :: rest =>
    match rest with
    | [] => .error .missarg
    | v :: rest2 =>
      match get_unsigned v.data with
      | none => .error .invalidUnbalancedTimer
      | some t =>
        if t ≥ ULONG_MAX / 100 then .error .invalidUnbalancedTimer
        else
          match resLoop rest2 with
          | .error e => .error e
          | .ok (attrs, leftover) =>
            .ok ((NHA_RES_GROUP_UNBALANCED_TIMER, .u32 (t * 100 % U32_MOD)) :: attrs,
                 leftover)
  | tok :: rest => .ok ([], tok :: rest)

/-- Embedding of `parse_nh_group_type_res` (ip/ipnexthop.c:527): with no
further arguments nothing is emitted; otherwise the recognized
sub-clauses are wrapped in one nested `NHA_RES_GROUP` attribute and the
first unrecognized token is handed back to the caller. -/
def parse_nh_group_type_res (toks : List String) :
    Except ResErr (List (Nat × AttrVal) × List String) :=
  match toks with
  | [] => .ok ([], [])
  | _ =>
    match resLoop toks with
    | .error e => .error e
    | .ok (attrs, leftover) => .ok ([(NHA_RES_GROUP, .nest attrs)], leftover)

/-! ## NexthopRequestBuilder: ipnh_modify (ip/ipnexthop.c:621)

The C loop consumes argv tokens.  Tokenization, device-name resolution
(`ll_name_to_index`) and textual address parsing (`get_addr`) are
external collaborators (spec §1 excludes them), so the input is modelled
as the list of already-tokenized clauses the loop dispatches on; a `via`
clause carries the parsed address (its family and bytes), a `dev` clause
the resolved ifindex (0 = nonexistent device), an `encap` clause the
bytes produced by the external encapsulation serializer.  The `type`
clause is handled by `parse_nh_group_type`/`parse_nh_group_type_res`
above and never touches the address family. -/

inductive Clause where
  | id (n : Nat)
  | dev (ifindex : Nat)
  | via (fam : Nat) (addr : List Nat)
  | encap (payload : List Nat)
  | blackhole
  | unreachable
  | prohibit
  | fdb
  | onlink
  | group (s : String)
  | protocol (p : Nat)

inductive ModErr where
  | badDev
  | familyMismatch
  | badGroup

/-- The request under construction: the `struct nhmsg` header fields and
the attribute tail of the netlink message. -/
structure ModState where
  family : Nat
  protocol : Nat := 0
  flags : Nat := 0
  attrs : List (Nat × AttrVal) := []

/-- One iteration of the clause loop of `ipnh_modify`
(ip/ipnexthop.c:635-718).  Family resolution follows the C exactly:
`dev`, `blackhole`, `unreachable` and `prohibit` default an unresolved
family to `AF_INET`; `via` adopts the address family when the family is
unresolved and otherwise rejects a differing address family with
invarg("address family mismatch").  `invarg` exits the process, so an
error discards the whole request. -/
def modifyStep (st : ModState) : Clause → Except ModErr ModState
  | .id n => .ok { st with attrs := st.attrs ++ [(NHA_ID, .u32 n)] }
  | .dev ifindex =>
    if ifindex = 0 then .error .badDev
    else
      .ok { st with
            attrs := st.attrs ++ [(NHA_OIF, .u32 ifindex)],
            family := if st.family = AF_UNSPEC then AF_INET else st.family }
  | .via fam addr =>
    if st.family = AF_UNSPEC then
      .ok { st with family := fam,
                    attrs := st.attrs ++ [(NHA_GATEWAY, .bytes addr)] }
    else if st.family ≠ fam then .error .familyMismatch
    else .ok { st with attrs := st.attrs ++ [(NHA_GATEWAY, .bytes addr)] }
  | .encap payload =>
    if payload ≠ [] then
      .ok { st with attrs := st.attrs ++ [(NHA_ENCAP, .bytes payload)] }
    else .ok st
  | .blackhole =>
    .ok { st with
          attrs := st.attrs ++ [(NHA_BLACKHOLE, .flag)],
          family := if st.family = AF_UNSPEC then AF_INET else st.family }
  | .unreachable =>
    .ok { st with
          attrs := st.attrs ++ [(NHA_UNREACHABLE, .flag)],
          family := if st.family = AF_UNSPEC then AF_INET else st.family }
  | .prohibit =>
    .ok { st with
          attrs := st.attrs ++ [(NHA_PROHIBIT, .flag)],
          family := if st.family = AF_UNSPEC then AF_INET else st.family }
  | .fdb => .ok { st with attrs := st.attrs ++ [(NHA_FDB, .flag)] }
  | .onlink => .ok { st with flags := st.flags ||| RTNH_F_ONLINK }
  | .group s =>
    match add_nh_group_attr s with
    | .error _ => .error .badGroup
    | .ok gs => .ok { st with attrs := st.attrs ++ [(NHA_GROUP, .grps gs)] }
  | .protocol p => .ok { st with protocol := p }

/-- Clause-loop fold of `ipnh_modify` from a given request state. -/
def buildModifyFold (st : ModState) : List Clause → Except ModErr ModState
  | [] => .ok st
  | c :: cs =>
    match modifyStep st c with
    | .error e => .error e
    | .ok st2 => buildModifyFold st2 cs

/-- Embedding of `ipnh_modify` (ip/ipnexthop.c:621): the request starts
with `nh_family = preferred_family` and an empty attribute tail, the
clause loop runs to completion, and any clause error (`invarg` in the C,
which exits the process) discards the request. -/
def ipnh_modify (preferredFamily : Nat) (cs : List Clause) : Except ModErr ModState :=
  buildModifyFold { family := preferredFamily } cs

/-- The attribute bytes actually handed to the transport: `rtnl_talk` is
reached only when every clause was accepted, so a failed build commits
nothing. -/
def ipnh_modify_wire (preferredFamily : Nat) (cs : List Clause) :
    Option (List (Nat × AttrVal)) :=
  match ipnh_modify preferredFamily cs with
  | .ok st => some st.attrs
  | .error _ => none

/-! ## Reply messages and the dump filter -/

/-- A decoded netlink message as the callbacks see it: the message type,
the payload length after the fixed `struct nhmsg` header
(`nlmsg_len - NLMSG_SPACE(sizeof nhmsg)`, negative for a malformed
message), the header's protocol field, and the attribute stream. -/
structure NhMsg where
  nlmsgType : Nat
  payloadLen : Int
  nhProtocol : Nat
  attrs : List (Nat × AttrVal)

/-- The process-global `filter` struct (ip/ipnexthop.c:17), made an
explicit value. -/
structure NhFilter where
  flushed : Nat := 0
  groups : Nat := 0
  ifindex : Nat := 0
  master : Nat := 0
  proto : Nat := 0
  fdb : Nat := 0
  id : Nat := 0
  nhid : Nat := 0

/-- Embedding of `nh_dump_filter` (ip/ipnexthop.c:62): the attributes
encoded into a dump request.  Sparse: only device, groups-only, master
and fdb markers are ever emitted; the protocol criterion has no wire
encoding. -/
def nh_dump_filter (fl : NhFilter) : List (Nat × AttrVal) :=
  (if fl.ifindex ≠ 0 then [(NHA_OIF, AttrVal.u32 fl.ifindex)] else []) ++
  (if fl.groups ≠ 0 then [(NHA_GROUPS, AttrVal.flag)] else []) ++
  (if fl.master ≠ 0 then [(NHA_MASTER, AttrVal.u32 fl.master)] else []) ++
  (if fl.fdb ≠ 0 then [(NHA_FDB, AttrVal.flag)] else [])

/-! ## ResponseDecoder: print_nexthop (ip/ipnexthop.c:331) -/

/-- The fields of a printed nexthop record that this development tracks:
deletion marker, id attribute and decoded group attribute. -/
structure NexthopRecord where
  deleted : Bool
  id : Option Nat
  group : Option GroupOut

/-- Embedding of `print_nexthop` (ip/ipnexthop.c:331) as a decoder:
result is `(return value, printed record)`.  A message whose type is
neither `RTM_NEWNEXTHOP` nor `RTM_DELNEXTHOP` is rejected with -1
(diagnostic, nothing decoded), as is a negative payload length; a
message failing the client-side protocol filter is skipped with 0 and
nothing printed. -/
def print_nexthop (fl : NhFilter) (m : NhMsg) : Int × Option NexthopRecord :=
  if m.nlmsgType ≠ RTM_DELNEXTHOP ∧ m.nlmsgType ≠ RTM_NEWNEXTHOP then (-1, none)
  else if m.payloadLen < 0 then (-1, none)
  else if fl.proto ≠ 0 ∧ fl.proto ≠ m.nhProtocol then (0, none)
  else
    (0, some
      { deleted := m.nlmsgType = RTM_DELNEXTHOP,
        id := (lookupAttr m.attrs NHA_ID).map rta_getattr_u32,
        group :=
          match lookupAttr m.attrs NHA_GROUP with
          | some (.grps gs) => some (print_nh_group gs)
          | some _ => some .invalid
          | none => none })

/-! ## ResponseDecoder: buckets (ip/ipnexthop.c:304, 417) -/

/-- Modelled from the spec: `__jiffies_to_tv` (lib/utils.c, not part of
src/) converts a tick count to seconds at 100 ticks per second
(glossary: "wire timer values are the user-supplied duration scaled by
100"); result is `(seconds, microseconds)`. -/
def jiffiesToTv (ticks : Nat) : Nat × Nat :=
  (ticks / 100, ticks % 100 * 10000)

/-- The nested bucket fields printed by `print_nh_res_bucket`. -/
structure BucketInfo where
  index : Option Nat
  idleTime : Option (Nat × Nat)
  nhid : Option Nat

/-- Embedding of `print_nh_res_bucket` (ip/ipnexthop.c:304): index is the
wire u16, idle time is the wire u64 tick count converted to seconds,
owner nexthop id is the wire u32. -/
def print_nh_res_bucket (attrs : List (Nat × AttrVal)) : BucketInfo :=
  { index := (lookupAttr attrs NHA_RES_BUCKET_INDEX).map rta_getattr_u16,
    idleTime :=
      (lookupAttr attrs NHA_RES_BUCKET_IDLE_TIME).map
        (fun a => jiffiesToTv (rta_getattr_u64 a)),
    nhid := (lookupAttr attrs NHA_RES_BUCKET_NH_ID).map rta_getattr_u32 }

/-- A printed bucket record. -/
structure BucketRecord where
  deleted : Bool
  id : Option Nat
  bucket : Option BucketInfo

/-- Embedding of `print_nexthop_bucket` (ip/ipnexthop.c:417): only the
bucket message kinds are accepted; note that the deleted marker is
printed when `nlmsg_type == RTM_DELNEXTHOP` — the non-bucket delete
kind — exactly as in the C source (line 442). -/
def print_nexthop_bucket (m : NhMsg) : Int × Option BucketRecord :=
  if m.nlmsgType ≠ RTM_DELNEXTHOPBUCKET ∧ m.nlmsgType ≠ RTM_NEWNEXTHOPBUCKET then
    (-1, none)
  else if m.payloadLen < 0 then (-1, none)
  else
    (0, some
      { deleted := m.nlmsgType = RTM_DELNEXTHOP,
        id := (lookupAttr m.attrs NHA_ID).map rta_getattr_u32,
        bucket :=
          match lookupAttr m.attrs NHA_RES_BUCKET with
          | some (.nest as) => some (print_nh_res_bucket as)
          | some _ => some (print_nh_res_bucket [])
          | none => none })

/-! ## The streaming dump and the single-shot get -/

/-- Modelled from the spec: `rtnl_dump_filter` (lib/libnetlink.c, not
part of src/) invokes the per-record callback on each message in
delivery order and a callback failure aborts the dump immediately,
records already delivered remaining processed (§5). -/
def rtnl_dump_filter {α : Type} (cb : α → NhMsg → Int × α) (st : α) :
    List NhMsg → Int × α
  | [] => (0, st)
  | m :: ms =>
    let r := cb st m
    if r.1 < 0 then (r.1, r.2)
    else rtnl_dump_filter cb r.2 ms

/-- The list-context callback: `print_nexthop` collecting the printed
records. -/
def printCb (fl : NhFilter) (st : List NexthopRecord) (m : NhMsg) :
    Int × List NexthopRecord :=
  let r := print_nexthop fl m
  (r.1, st ++ r.2.toList)

/-- A `list` dump over a given reply stream. -/
def listNexthopDump (fl : NhFilter) (msgs : List NhMsg) : Int × List NexthopRecord :=
  rtnl_dump_filter (printCb fl) [] msgs

/-- Decode half of `ipnh_get_id` (ip/ipnexthop.c:728): a single-shot get
applies `print_nexthop` to the one answer and fails the whole call when
the decoder rejects it. -/
def ipnh_get_id (fl : NhFilter) (answer : NhMsg) : Int :=
  if (print_nexthop fl answer).1 < 0 then -1 else 0

/-! ## Kernel model for flush

The kernel side of dump and delete is an external collaborator.
Modelled from the spec: a dump returns all objects matching every
encoded predicate of the request (§4.4, §6), and the kernel refuses to
delete a nexthop still referenced by a group (§4.5 rationale). -/

/-- A kernel-resident nexthop as far as flush is concerned. -/
structure KNexthop where
  id : Nat
  protocol : Nat := 0
  isGroup : Bool := false
  members : List Nat := []
  dev : Nat := 0
  master : Nat := 0
  fdbNh : Bool := false

/-- The kernel's nexthop table, in kernel iteration order. -/
abbrev Kernel := List KNexthop

/-- Modelled from the spec: whether one nexthop matches every predicate
that was encoded into the dump request (§4.4: device, groups-only
marker, master, fdb-only marker). -/
def kernelMatchAttrs (attrs : List (Nat × AttrVal)) (nh : KNexthop) : Bool :=
  attrs.all fun a =>
    if a.1 = NHA_OIF then nh.dev == rta_getattr_u32 a.2
    else if a.1 = NHA_GROUPS then nh.isGroup
    else if a.1 = NHA_MASTER then nh.master == rta_getattr_u32 a.2
    else if a.1 = NHA_FDB then nh.fdbNh
    else true

/-- Modelled from the spec: the record stream a dump with the given
filter produces, a snapshot of the matching table entries in order. -/
def dumpRecords (fl : NhFilter) (k : Kernel) : List KNexthop :=
  List.filter (kernelMatchAttrs (nh_dump_filter fl)) k

/-- Modelled from the spec: deleting a nexthop succeeds when it exists
and no group still references it (§4.5: "the kernel refuses to delete a
nexthop still referenced by a group"). -/
def kernelDelete (k : Kernel) (i : Nat) : Option Kernel :=
  if (∃ x ∈ k, x.id = i) ∧ (∀ x ∈ k, i ∉ x.members) then
    some (List.filter (fun nh => nh.id != i) k)
  else none

/-- The reply message the kernel builds for one dumped nexthop. -/
def nhMsgOf (nh : KNexthop) : NhMsg :=
  { nlmsgType := RTM_NEWNEXTHOP, payloadLen := 4, nhProtocol := nh.protocol,
    attrs := [(NHA_ID, .u32 nh.id)] }

/-! ## FlushController (ip/ipnexthop.c:123-213) -/

/-- The two transport connections alive during a flush: the global
`rth` that drives the dump and the flush-scoped `rth_del`
(ip/ipnexthop.c:123) used for the per-record deletes. -/
inductive Conn where
  | main
  | del

/-- Observable transport events of a flush run. -/
inductive Ev where
  | openConn (c : Conn)
  | closeConn (c : Conn)
  | dumpStart (c : Conn) (attrs : List (Nat × AttrVal))
  | dumpEnd (c : Conn)
  | request (c : Conn) (i : Nat) (ok : Bool)

/-- The id `flush_nexthop` (ip/ipnexthop.c:163-165) extracts from a
dumped message: the `NHA_ID` attribute's u32 payload, defaulting to 0
when the attribute is absent. -/
def flushMsgId (m : NhMsg) : Nat :=
  match lookupAttr m.attrs NHA_ID with
  | some a => rta_getattr_u32 a
  | none => 0

/-- Embedding of the `flush_nexthop` callback (ip/ipnexthop.c:147),
parameterized by the outcome of `delete_nexthop` (the blocking
request/response on `rth_del`).  Result: (callback return value, updated
filter, id of the delete request issued, if any).  A negative payload
length is the BUG path (-1); a protocol mismatch skips the record; a
delete is issued only for a nonzero extracted id and only a successful
delete is counted. -/
def flush_nexthop (delOK : Nat → Bool) (fl : NhFilter) (m : NhMsg) :
    Int × NhFilter × Option Nat :=
  if m.payloadLen < 0 then (-1, fl, none)
  else if fl.proto ≠ 0 ∧ m.nhProtocol ≠ fl.proto then (0, fl, none)
  else
    let i := flushMsgId m
    if i ≠ 0 then
      if delOK i then (0, { fl with flushed := fl.flushed + 1 }, some i)
      else (0, fl, some i)
    else (0, fl, none)

/-- Result of processing one dump's record stream during flush. -/
structure LoopOut where
  rc : Int
  fl : NhFilter
  k : Kernel
  evs : List Ev

/-- One dump's record stream processed by `flush_nexthop`, with each
delete request issued as an independent blocking exchange on the `del`
connection against the live kernel (`rtnl_dump_filter` aborts when the
callback fails). -/
def flushDumpLoop (fl : NhFilter) (k : Kernel) : List NhMsg → LoopOut
  | [] => ⟨0, fl, k, []⟩
  | m :: ms =>
    let step := flush_nexthop (fun i => (kernelDelete k i).isSome) fl m
    let k2 := match step.2.2 with
      | some i => (kernelDelete k i).getD k
      | none => k
    let evs := match step.2.2 with
      | some i => [Ev.request Conn.del i (kernelDelete k i).isSome]
      | none => []
    if step.1 < 0 then ⟨step.1, step.2.1, k2, evs⟩
    else
      let r := flushDumpLoop step.2.1 k2 ms
      ⟨r.rc, r.fl, r.k, evs ++ r.evs⟩

/-- Transport failure injection for a flush run: whether opening
`rth_del` fails, and per pass whether sending the dump request fails or
the dump itself terminates abnormally (after the delivered records, per
§5: records already delivered remain processed). -/
structure FlushEnv where
  openFail : Bool := false
  dumpReqFail : Nat → Bool := fun _ => false
  dumpFail : Nat → Bool := fun _ => false

/-- An environment with no transport failures. -/
def envOK : FlushEnv := {}

/-- The filter state `ipnh_flush` installs for "flush all"
(ip/ipnexthop.c:177-181): groups-only set, device and master cleared,
protocol (and fdb) kept. -/
def flushAllFilter (fl0 : NhFilter) : NhFilter :=
  { fl0 with groups := 1, ifindex := 0, master := 0 }

/-- The filter a flush run starts with: the flush-all rewrite when `all`
is set, the caller's selectors otherwise. -/
def flushStartFilter (all : Bool) (fl0 : NhFilter) : NhFilter :=
  if all then flushAllFilter fl0 else fl0

/-- Result of a whole flush run. -/
structure FlushOut where
  rc : Int
  fl : NhFilter
  k : Kernel
  evs : List Ev
  stderrLines : List String

/-- Embedding of `ipnh_flush` (ip/ipnexthop.c:173): for "flush all" the
groups-only marker is set and device/master constraints are cleared;
`rth_del` is opened first and closed on every exit path reached after
the open; the dump+delete pass repeats once with the groups-only marker
cleared when flushing all; the dump-request failure and dump-termination
paths give up with rc -2. -/
def ipnh_flush (env : FlushEnv) (all : Bool) (fl0 : NhFilter) (k0 : Kernel) :
    FlushOut :=
  let fl := flushStartFilter all fl0
  if env.openFail then
    ⟨1, fl, k0, [], ["Cannot open rtnetlink"]⟩
  else if env.dumpReqFail 0 then
    ⟨-2, fl, k0, [Ev.openConn Conn.del, Ev.closeConn Conn.del],
     ["Cannot send dump request"]⟩
  else
    let o1 := flushDumpLoop fl k0 (List.map nhMsgOf (dumpRecords fl k0))
    let evs1 := Ev.openConn Conn.del ::
      Ev.dumpStart Conn.main (nh_dump_filter fl) :: o1.evs ++ [Ev.dumpEnd Conn.main]
    if env.dumpFail 0 ∨ o1.rc < 0 then
      ⟨-2, o1.fl, o1.k, evs1 ++ [Ev.closeConn Conn.del],
       ["Dump terminated. Failed to flush nexthops"]⟩
    else if all ∧ o1.fl.groups ≠ 0 then
      let fl2 := { o1.fl with groups := 0 }
      if env.dumpReqFail 1 then
        ⟨-2, fl2, o1.k, evs1 ++ [Ev.closeConn Conn.del], ["Cannot send dump request"]⟩
      else
        let o2 := flushDumpLoop fl2 o1.k (List.map nhMsgOf (dumpRecords fl2 o1.k))
        let evs2 := evs1 ++ Ev.dumpStart Conn.main (nh_dump_filter fl2) ::
          o2.evs ++ [Ev.dumpEnd Conn.main]
        if env.dumpFail 1 ∨ o2.rc < 0 then
          ⟨-2, o2.fl, o2.k, evs2 ++ [Ev.closeConn Conn.del],
           ["Dump terminated. Failed to flush nexthops"]⟩
        else ⟨0, o2.fl, o2.k, evs2 ++ [Ev.closeConn Conn.del], []⟩
    else ⟨0, o1.fl, o1.k, evs1 ++ [Ev.closeConn Conn.del], []⟩

/-- The final report of `ipnh_flush` (ip/ipnexthop.c:207-210). -/
def flushReport (fl : NhFilter) : String :=
  if fl.flushed = 0 then "Nothing to flush"
  else "Flushed " ++ toString fl.flushed ++ " nexthops"

/-! ## Derived notions about flush runs -/

/-- The id belongs to a group nexthop of the given kernel table. -/
def isGroupId (k : Kernel) (i : Nat) : Prop :=
  ∃ nh ∈ k, nh.id = i ∧ nh.isGroup = true

/-- Well-formedness of a kernel nexthop table: ids are nonzero and
pairwise distinct, and group members only reference non-group nexthops
(the kernel's own invariant: groups cannot nest). -/
def KernelWF (k : Kernel) : Prop :=
  (∀ nh ∈ k, nh.id ≠ 0) ∧
  List.Pairwise (fun a b => a.id ≠ b.id) k ∧
  (∀ a ∈ k, ∀ b ∈ k, b.isGroup = true → b.id ∉ a.members)

def isOkRequest : Ev → Bool
  | .request _ _ true => true
  | _ => false

def isRequest : Ev → Bool
  | .request _ _ _ => true
  | _ => false

def isDumpStart : Ev → Bool
  | .dumpStart _ _ => true
  | _ => false

/-- The delete requests of a trace, in order, with their outcomes. -/
def requestsOf (evs : List Ev) : List (Nat × Bool) :=
  evs.filterMap fun e =>
    match e with
    | .request _ i ok => some (i, ok)
    | _ => none

/-- The record-level view of one flush pass: `flushDumpLoop` over the
kernel's reply messages, with the message codec folded away (see
`flushDumpLoop_eq_recs`). -/
def flushRecsLoop (fl : NhFilter) (k : Kernel) : List KNexthop → LoopOut
  | [] => ⟨0, fl, k, []⟩
  | r :: rs =>
    if fl.proto ≠ 0 ∧ r.protocol ≠ fl.proto then flushRecsLoop fl k rs
    else if r.id ≠ 0 then
      match kernelDelete k r.id with
      | some k2 =>
        let o := flushRecsLoop { fl with flushed := fl.flushed + 1 } k2 rs
        ⟨o.rc, o.fl, o.k, Ev.request Conn.del r.id true :: o.evs⟩
      | none =>
        let o := flushRecsLoop fl k rs
        ⟨o.rc, o.fl, o.k, Ev.request Conn.del r.id false :: o.evs⟩
    else flushRecsLoop fl k rs

/-! ## Lemmas about the flush machinery -/

theorem flushMsgId_nhMsgOf (nh : KNexthop) : flushMsgId (nhMsgOf nh) = nh.id := rfl

theorem flush_nexthop_nhMsgOf (delOK : Nat → Bool) (fl : NhFilter) (nh : KNexthop) :
    flush_nexthop delOK fl (nhMsgOf nh) =
      if fl.proto ≠ 0 ∧ nh.protocol ≠ fl.proto then (0, fl, none)
      else if nh.id ≠ 0 then
        if delOK nh.id then (0, { fl with flushed := fl.flushed + 1 }, some nh.id)
        else (0, fl, some nh.id)
      else (0, fl, none) := by
  simp only [flush_nexthop, nhMsgOf]
  rw [if_neg (by decide : ¬ ((4 : Int) < 0))]
  rfl

theorem flushDumpLoop_eq_recs :
    ∀ (recs : List KNexthop) (fl : NhFilter) (k : Kernel),
      flushDumpLoop fl k (List.map nhMsgOf recs) = flushRecsLoop fl k recs := by
  intro recs
  induction recs with
  | nil => intro fl k; rfl
  | cons r rs ih =>
    intro fl k
    simp only [List.map_cons, flushDumpLoop, flush_nexthop_nhMsgOf, flushRecsLoop]
    by_cases hproto : fl.proto ≠ 0 ∧ r.protocol ≠ fl.proto
    · simp [hproto, ih]
    · by_cases hid : r.id ≠ 0
      · cases hdel : kernelDelete k r.id with
        | some k2 => simp [hproto, hid, hdel, ih]
        | none => simp [hproto, hid, hdel, ih]
      · simp [hproto, hid, ih]

theorem kernelDelete_sublist {k k2 : Kernel} {i : Nat}
    (h : kernelDelete k i = some k2) : List.Sublist k2 k := by
  unfold kernelDelete at h
  split at h
  · cases h; exact List.filter_sublist k
  · cases h

theorem kernelDelete_some {k : Kernel} {i : Nat}
    (hpres : ∃ x ∈ k, x.id = i) (hunref : ∀ x ∈ k, i ∉ x.members) :
    kernelDelete k i = some (List.filter (fun nh => nh.id != i) k) := by
  unfold kernelDelete
  rw [if_pos (And.intro hpres hunref)]

theorem kernelDelete_not_mem {k k2 : Kernel} {i : Nat}
    (h : kernelDelete k i = some k2) : ∀ x ∈ k2, x.id ≠ i := by
  unfold kernelDelete at h
  split at h
  · cases h
    intro x hx
    have hm := List.mem_filter.mp hx
    simpa using hm.2
  · cases h

theorem flushRecsLoop_cons_skip {fl : NhFilter} {k : Kernel} {x : KNexthop}
    {rs : List KNexthop} (h : fl.proto ≠ 0 ∧ x.protocol ≠ fl.proto) :
    flushRecsLoop fl k (x :: rs) = flushRecsLoop fl k rs := by
  simp [flushRecsLoop, h]

theorem flushRecsLoop_cons_zero {fl : NhFilter} {k : Kernel} {x : KNexthop}
    {rs : List KNexthop} (h : ¬ (fl.proto ≠ 0 ∧ x.protocol ≠ fl.proto))
    (hz : ¬ x.id ≠ 0) :
    flushRecsLoop fl k (x :: rs) = flushRecsLoop fl k rs := by
  simp only [flushRecsLoop, if_neg h, if_neg hz]

theorem flushRecsLoop_cons_some {fl : NhFilter} {k k2 : Kernel} {x : KNexthop}
    {rs : List KNexthop} (h : ¬ (fl.proto ≠ 0 ∧ x.protocol ≠ fl.proto))
    (hid : x.id ≠ 0) (hdel : kernelDelete k x.id = some k2) :
    flushRecsLoop fl k (x :: rs) =
      ⟨(flushRecsLoop { fl with flushed := fl.flushed + 1 } k2 rs).rc,
       (flushRecsLoop { fl with flushed := fl.flushed + 1 } k2 rs).fl,
       (flushRecsLoop { fl with flushed := fl.flushed + 1 } k2 rs).k,
       Ev.request Conn.del x.id true ::
         (flushRecsLoop { fl with flushed := fl.flushed + 1 } k2 rs).evs⟩ := by
  simp only [flushRecsLoop, if_neg h, if_pos hid, hdel]

theorem flushRecsLoop_cons_none {fl : NhFilter} {k : Kernel} {x : KNexthop}
    {rs : List KNexthop} (h : ¬ (fl.proto ≠ 0 ∧ x.protocol ≠ fl.proto))
    (hid : x.id ≠ 0) (hdel : kernelDelete k x.id = none) :
    flushRecsLoop fl k (x :: rs) =
      ⟨(flushRecsLoop fl k rs).rc,
       (flushRecsLoop fl k rs).fl,
       (flushRecsLoop fl k rs).k,
       Ev.request Conn.del x.id false :: (flushRecsLoop fl k rs).evs⟩ := by
  simp only [flushRecsLoop, if_neg h, if_pos hid, hdel]

theorem flushRecsLoop_spec :
    ∀ (recs : List KNexthop) (fl : NhFilter) (k : Kernel),
      (flushRecsLoop fl k recs).rc = 0 ∧
      (flushRecsLoop fl k recs).fl.groups = fl.groups ∧
      (flushRecsLoop fl k recs).fl.proto = fl.proto ∧
      (flushRecsLoop fl k recs).fl.ifindex = fl.ifindex ∧
      (flushRecsLoop fl k recs).fl.master = fl.master ∧
      (flushRecsLoop fl k recs).fl.fdb = fl.fdb ∧
      List.Sublist (flushRecsLoop fl k recs).k k ∧
      (∀ e ∈ (flushRecsLoop fl k recs).evs, ∃ r ok, r ∈ recs ∧
        e = Ev.request Conn.del r.id ok ∧ r.id ≠ 0 ∧
        (fl.proto = 0 ∨ r.protocol = fl.proto)) ∧
      (flushRecsLoop fl k recs).fl.flushed =
        fl.flushed + List.countP isOkRequest (flushRecsLoop fl k recs).evs := by
  intro recs
  induction recs with
  | nil =>
    intro fl k
    refine ⟨rfl, rfl, rfl, rfl, rfl, rfl, List.Sublist.refl k, ?_, ?_⟩
    · intro e he; cases he
    · simp [flushRecsLoop]
  | cons x rs ih =>
    intro fl k
    by_cases hproto : fl.proto ≠ 0 ∧ x.protocol ≠ fl.proto
    · rw [flushRecsLoop_cons_skip hproto]
      obtain ⟨h1, h2, h3, h4, h5, h6, h7, h8, h9⟩ := ih fl k
      refine ⟨h1, h2, h3, h4, h5, h6, h7, ?_, h9⟩
      intro e he
      obtain ⟨r2, ok, hr2, he2, hid2, hp2⟩ := h8 e he
      exact ⟨r2, ok, List.mem_cons_of_mem x hr2, he2, hid2, hp2⟩
    · by_cases hid : x.id ≠ 0
      · cases hdel : kernelDelete k x.id with
        | some k2 =>
          rw [flushRecsLoop_cons_some hproto hid hdel]
          obtain ⟨h1, h2, h3, h4, h5, h6, h7, h8, h9⟩ :=
            ih { fl with flushed := fl.flushed + 1 } k2
          refine ⟨h1, h2, h3, h4, h5, h6,
            h7.trans (kernelDelete_sublist hdel), ?_, ?_⟩
          · intro e he
            rcases List.mem_cons.mp he with he | he
            · exact ⟨x, true, List.mem_cons_self x rs, he, hid, by omega⟩
            · obtain ⟨r2, ok, hr2, he2, hid2, hp2⟩ := h8 e he
              exact ⟨r2, ok, List.mem_cons_of_mem x hr2, he2, hid2, hp2⟩
          · rw [List.countP_cons]
            simp only [isOkRequest, if_pos]
            dsimp only at h9
            omega
        | none =>
          rw [flushRecsLoop_cons_none hproto hid hdel]
          obtain ⟨h1, h2, h3, h4, h5, h6, h7, h8, h9⟩ := ih fl k
          refine ⟨h1, h2, h3, h4, h5, h6, h7, ?_, ?_⟩
          · intro e he
            rcases List.mem_cons.mp he with he | he
            · exact ⟨x, false, List.mem_cons_self x rs, he, hid, by omega⟩
            · obtain ⟨r2, ok, hr2, he2, hid2, hp2⟩ := h8 e he
              exact ⟨r2, ok, List.mem_cons_of_mem x hr2, he2, hid2, hp2⟩
          · rw [List.countP_cons]
            simp only [isOkRequest, if_neg (by decide : ¬ (false = true))]
            omega
      · rw [flushRecsLoop_cons_zero hproto hid]
        obtain ⟨h1, h2, h3, h4, h5, h6, h7, h8, h9⟩ := ih fl k
        refine ⟨h1, h2, h3, h4, h5, h6, h7, ?_, h9⟩
        intro e he
        obtain ⟨r2, ok, hr2, he2, hid2, hp2⟩ := h8 e he
        exact ⟨r2, ok, List.mem_cons_of_mem x hr2, he2, hid2, hp2⟩

theorem flushRecsLoop_attempts :
    ∀ (recs : List KNexthop) (fl : NhFilter) (k : Kernel) (r : KNexthop),
      r ∈ recs → r.id ≠ 0 → (fl.proto = 0 ∨ r.protocol = fl.proto) →
      ∃ ok, Ev.request Conn.del r.id ok ∈ (flushRecsLoop fl k recs).evs := by
  intro recs
  induction recs with
  | nil => intro fl k r hr; cases hr
  | cons x rs ih =>
    intro fl k r hr hid hproto
    rcases List.mem_cons.mp hr with hr | hr
    · subst hr
      have hnp : ¬ (fl.proto ≠ 0 ∧ r.protocol ≠ fl.proto) := by omega
      cases hdel : kernelDelete k r.id with
      | some k2 =>
        rw [flushRecsLoop_cons_some hnp hid hdel]
        exact ⟨true, List.mem_cons_self _ _⟩
      | none =>
        rw [flushRecsLoop_cons_none hnp hid hdel]
        exact ⟨false, List.mem_cons_self _ _⟩
    · by_cases hnp : fl.proto ≠ 0 ∧ x.protocol ≠ fl.proto
      · rw [flushRecsLoop_cons_skip hnp]
        exact ih fl k r hr hid hproto
      · by_cases hxid : x.id ≠ 0
        · cases hdel : kernelDelete k x.id with
          | some k2 =>
            rw [flushRecsLoop_cons_some hnp hxid hdel]
            obtain ⟨ok, hok⟩ :=
              ih { fl with flushed := fl.flushed + 1 } k2 r hr hid
                (by dsimp only; omega)
            exact ⟨ok, List.mem_cons_of_mem _ hok⟩
          | none =>
            rw [flushRecsLoop_cons_none hnp hxid hdel]
            obtain ⟨ok, hok⟩ := ih fl k r hr hid hproto
            exact ⟨ok, List.mem_cons_of_mem _ hok⟩
        · rw [flushRecsLoop_cons_zero hnp hxid]
          exact ih fl k r hr hid hproto

theorem flushRecsLoop_deletes :
    ∀ (recs : List KNexthop) (fl : NhFilter) (k : Kernel),
      (∀ r ∈ recs, r.id ≠ 0) →
      List.Pairwise (fun a b => a.id ≠ b.id) recs →
      (∀ r ∈ recs, ∃ x ∈ k, x.id = r.id) →
      (∀ r ∈ recs, ∀ x ∈ k, r.id ∉ x.members) →
      ∀ r ∈ recs, (fl.proto = 0 ∨ r.protocol = fl.proto) →
        Ev.request Conn.del r.id true ∈ (flushRecsLoop fl k recs).evs ∧
        (∀ x ∈ (flushRecsLoop fl k recs).k, x.id ≠ r.id) := by
  intro recs
  induction recs with
  | nil => intro fl k _ _ _ _ r hr; cases hr
  | cons x rs ih =>
    intro fl k hids hdist hpres hunref r hr hproto
    have hxid : x.id ≠ 0 := hids x (List.mem_cons_self x rs)
    rcases List.mem_cons.mp hr with hreq | hrtail
    · subst hreq
      have hnp : ¬ (fl.proto ≠ 0 ∧ r.protocol ≠ fl.proto) := by omega
      have hdel : kernelDelete k r.id =
          some (List.filter (fun nh => nh.id != r.id) k) :=
        kernelDelete_some (hpres r (List.mem_cons_self r rs))
          (fun y hy => hunref r (List.mem_cons_self r rs) y hy)
      rw [flushRecsLoop_cons_some hnp hxid hdel]
      refine ⟨List.mem_cons_self _ _, ?_⟩
      intro y hy
      have hsub : List.Sublist
          (flushRecsLoop { fl with flushed := fl.flushed + 1 }
            (List.filter (fun nh => nh.id != r.id) k) rs).k
          (List.filter (fun nh => nh.id != r.id) k) :=
        (flushRecsLoop_spec rs _ _).2.2.2.2.2.2.1
      have hy2 := hsub.subset hy
      have hm := List.mem_filter.mp hy2
      simpa using hm.2
    · have hxne : ∀ b ∈ rs, x.id ≠ b.id :=
        fun b hb => List.rel_of_pairwise_cons hdist hb
      have htail : ∀ (k2 : Kernel) (fl2 : NhFilter),
          List.Sublist k2 k → fl2.proto = fl.proto →
          (∀ r2 ∈ rs, ∃ y ∈ k2, y.id = r2.id) →
          Ev.request Conn.del r.id true ∈ (flushRecsLoop fl2 k2 rs).evs ∧
          (∀ y ∈ (flushRecsLoop fl2 k2 rs).k, y.id ≠ r.id) := by
        intro k2 fl2 hsub hp hpres2
        exact ih fl2 k2
          (fun r2 hr2 => hids r2 (List.mem_cons_of_mem x hr2))
          (List.Pairwise.of_cons hdist)
          hpres2
          (fun r2 hr2 y hy =>
            hunref r2 (List.mem_cons_of_mem x hr2) y (hsub.subset hy))
          r hrtail (by omega)
      by_cases hnp : fl.proto ≠ 0 ∧ x.protocol ≠ fl.proto
      · rw [flushRecsLoop_cons_skip hnp]
        exact htail k fl (List.Sublist.refl k) rfl
          (fun r2 hr2 => hpres r2 (List.mem_cons_of_mem x hr2))
      · cases hdel : kernelDelete k x.id with
        | some k2 =>
          rw [flushRecsLoop_cons_some hnp hxid hdel]
          have hpres2 : ∀ r2 ∈ rs, ∃ y ∈ k2, y.id = r2.id := by
            intro r2 hr2
            obtain ⟨y, hy, hyid⟩ := hpres r2 (List.mem_cons_of_mem x hr2)
            refine ⟨y, ?_, hyid⟩
            have hk2 : k2 = List.filter (fun nh => nh.id != x.id) k := by
              unfold kernelDelete at hdel
              split at hdel
              · cases hdel; rfl
              · cases hdel
            rw [hk2]
            refine List.mem_filter.mpr ⟨hy, ?_⟩
            have : y.id ≠ x.id := by
              rw [hyid]
              exact fun hc => hxne r2 hr2 hc.symm
            simpa using this
          obtain ⟨hin, hnotin⟩ :=
            htail k2 { fl with flushed := fl.flushed + 1 }
              (kernelDelete_sublist hdel) rfl hpres2
          exact ⟨List.mem_cons_of_mem _ hin, hnotin⟩
        | none =>
          rw [flushRecsLoop_cons_none hnp hxid hdel]
          obtain ⟨hin, hnotin⟩ :=
            htail k fl (List.Sublist.refl k) rfl
              (fun r2 hr2 => hpres r2 (List.mem_cons_of_mem x hr2))
          exact ⟨List.mem_cons_of_mem _ hin, hnotin⟩

theorem pairwise_id_inj {k : Kernel}
    (h : List.Pairwise (fun a b => a.id ≠ b.id) k) :
    ∀ a ∈ k, ∀ b ∈ k, a.id = b.id → a = b := by
  induction k with
  | nil => intro a ha; cases ha
  | cons x t ih =>
    intro a ha b hb heq
    have hx : ∀ b ∈ t, x.id ≠ b.id := fun b hb => List.rel_of_pairwise_cons h hb
    rcases List.mem_cons.mp ha with ha | ha <;>
      rcases List.mem_cons.mp hb with hb | hb
    · rw [ha, hb]
    · exact absurd (ha ▸ heq) (hx b hb)
    · exact absurd (hb ▸ heq.symm) (hx a ha)
    · exact ih (List.Pairwise.of_cons h) a ha b hb heq

/-- The fdb predicate part of a flush-all dump filter. -/
def nhFdbPart (fl0 : NhFilter) : List (Nat × AttrVal) :=
  if fl0.fdb ≠ 0 then [(NHA_FDB, AttrVal.flag)] else []

theorem nh_dump_filter_flushAll (fl0 : NhFilter) :
    nh_dump_filter (flushAllFilter fl0) =
      (NHA_GROUPS, AttrVal.flag) :: nhFdbPart fl0 := by
  simp [nh_dump_filter, flushAllFilter, nhFdbPart]

theorem nh_dump_filter_pass2 (fl0 : NhFilter) :
    nh_dump_filter { flushAllFilter fl0 with groups := 0 } = nhFdbPart fl0 := by
  simp [nh_dump_filter, flushAllFilter, nhFdbPart]

theorem nh_dump_filter_congr {a b : NhFilter} (h1 : a.ifindex = b.ifindex)
    (h2 : a.groups = b.groups) (h3 : a.master = b.master) (h4 : a.fdb = b.fdb) :
    nh_dump_filter a = nh_dump_filter b := by
  simp [nh_dump_filter, h1, h2, h3, h4]

theorem noGroupsAttr_fdbPart (fl0 : NhFilter) :
    ∀ v, (NHA_GROUPS, v) ∉ nhFdbPart fl0 := by
  intro v
  unfold nhFdbPart
  split
  · intro hmem
    rcases List.mem_singleton.mp hmem with h
    cases h
  · exact List.not_mem_nil _

theorem kernelMatch_groups_cons {attrs : List (Nat × AttrVal)} {nh : KNexthop} :
    kernelMatchAttrs ((NHA_GROUPS, AttrVal.flag) :: attrs) nh = true ↔
      nh.isGroup = true ∧ kernelMatchAttrs attrs nh = true := by
  simp [kernelMatchAttrs, NHA_GROUPS, NHA_OIF]

theorem dumpRecords_mem {fl : NhFilter} {k : Kernel} {r : KNexthop} :
    r ∈ dumpRecords fl k ↔
      r ∈ k ∧ kernelMatchAttrs (nh_dump_filter fl) r = true := by
  simp [dumpRecords, List.mem_filter]

theorem dumpRecords_flushAll_mem {fl0 : NhFilter} {k : Kernel} {r : KNexthop} :
    r ∈ dumpRecords (flushAllFilter fl0) k ↔
      r ∈ k ∧ r.isGroup = true ∧ kernelMatchAttrs (nhFdbPart fl0) r = true := by
  rw [dumpRecords_mem, nh_dump_filter_flushAll, kernelMatch_groups_cons]

theorem flushRecsLoop_rc0 (fl : NhFilter) (k : Kernel) (recs : List KNexthop) :
    ¬ (flushRecsLoop fl k recs).rc < 0 := by
  rw [(flushRecsLoop_spec recs fl k).1]
  decide

theorem flushRecsLoop_groups (fl : NhFilter) (k : Kernel) (recs : List KNexthop) :
    (flushRecsLoop fl k recs).fl.groups = fl.groups :=
  (flushRecsLoop_spec recs fl k).2.1

theorem flushRecsLoop_evs_form {recs : List KNexthop} {fl : NhFilter} {k : Kernel} :
    ∀ e ∈ (flushRecsLoop fl k recs).evs,
      ∃ i ok, e = Ev.request Conn.del i ok := by
  intro e he
  obtain ⟨r, ok, _, he2, _, _⟩ :=
    (flushRecsLoop_spec recs fl k).2.2.2.2.2.2.2.1 e he
  exact ⟨r.id, ok, he2⟩

/-- Everything between a pass's dump-start and dump-end is a delete
request on the `del` connection. -/
theorem midMem_pass (fl : NhFilter) (k : Kernel) (recs : List KNexthop) :
    ∀ e ∈ (Ev.dumpStart Conn.main (nh_dump_filter fl) ::
        ((flushRecsLoop fl k recs).evs ++ [Ev.dumpEnd Conn.main])),
      (∃ i ok, e = Ev.request Conn.del i ok) ∨
      (∃ attrs, e = Ev.dumpStart Conn.main attrs) ∨ e = Ev.dumpEnd Conn.main := by
  intro e he
  rcases List.mem_cons.mp he with he | he
  · exact Or.inr (Or.inl ⟨_, he⟩)
  · rcases List.mem_append.mp he with he | he
    · exact Or.inl (flushRecsLoop_evs_form e he)
    · exact Or.inr (Or.inr (List.mem_singleton.mp he))

/-- Shape of a flush run's transport trace: empty when opening the
delete connection fails, and otherwise an open of the `del` connection,
a middle consisting only of dump bracketing on the `main` connection and
delete requests on the `del` connection, and a final close of the `del`
connection — on every exit path. -/
theorem ipnh_flush_evs_shape (env : FlushEnv) (all : Bool) (fl0 : NhFilter)
    (k0 : Kernel) :
    (env.openFail = true → (ipnh_flush env all fl0 k0).evs = []) ∧
    (env.openFail = false → ∃ mid,
      (ipnh_flush env all fl0 k0).evs =
        Ev.openConn Conn.del :: mid ++ [Ev.closeConn Conn.del] ∧
      ∀ e ∈ mid, (∃ i ok, e = Ev.request Conn.del i ok) ∨
        (∃ attrs, e = Ev.dumpStart Conn.main attrs) ∨
        e = Ev.dumpEnd Conn.main) := by
  constructor
  · intro hof
    simp [ipnh_flush, hof]
  · intro hof
    by_cases h1 : env.dumpReqFail 0 = true
    · refine ⟨[], ?_, ?_⟩
      · simp [ipnh_flush, hof, h1]
      · intro e he; cases he
    · replace h1 : env.dumpReqFail 0 = false := by simpa using h1
      by_cases h2 : env.dumpFail 0 = true
      · refine ⟨Ev.dumpStart Conn.main (nh_dump_filter (flushStartFilter all fl0)) ::
          ((flushRecsLoop (flushStartFilter all fl0) k0
              (dumpRecords (flushStartFilter all fl0) k0)).evs ++
            [Ev.dumpEnd Conn.main]), ?_, midMem_pass _ _ _⟩
        simp [ipnh_flush, flushDumpLoop_eq_recs, hof, h1, h2]
      · replace h2 : env.dumpFail 0 = false := by simpa using h2
        by_cases hallT : all = true
        · subst hallT
          by_cases hgr : (flushRecsLoop (flushStartFilter true fl0) k0
              (dumpRecords (flushStartFilter true fl0) k0)).fl.groups = 0
          · refine ⟨Ev.dumpStart Conn.main
                (nh_dump_filter (flushStartFilter true fl0)) ::
              ((flushRecsLoop (flushStartFilter true fl0) k0
                  (dumpRecords (flushStartFilter true fl0) k0)).evs ++
                [Ev.dumpEnd Conn.main]), ?_, midMem_pass _ _ _⟩
            simp [ipnh_flush, flushDumpLoop_eq_recs, hof, h1, h2, hgr,
              flushRecsLoop_rc0]
          · by_cases h4 : env.dumpReqFail 1 = true
            · refine ⟨Ev.dumpStart Conn.main
                  (nh_dump_filter (flushStartFilter true fl0)) ::
                ((flushRecsLoop (flushStartFilter true fl0) k0
                    (dumpRecords (flushStartFilter true fl0) k0)).evs ++
                  [Ev.dumpEnd Conn.main]), ?_, midMem_pass _ _ _⟩
              simp [ipnh_flush, flushDumpLoop_eq_recs, hof, h1, h2, hgr, h4,
                flushRecsLoop_rc0]
            · replace h4 : env.dumpReqFail 1 = false := by simpa using h4
              by_cases h5 : env.dumpFail 1 = true
              all_goals
                refine ⟨(Ev.dumpStart Conn.main
                    (nh_dump_filter (flushStartFilter true fl0)) ::
                  ((flushRecsLoop (flushStartFilter true fl0) k0
                      (dumpRecords (flushStartFilter true fl0) k0)).evs ++
                    [Ev.dumpEnd Conn.main])) ++
                  (Ev.dumpStart Conn.main (nh_dump_filter
                      { (flushRecsLoop (flushStartFilter true fl0) k0
                          (dumpRecords (flushStartFilter true fl0) k0)).fl with
                        groups := 0 }) ::
                    ((flushRecsLoop
                        { (flushRecsLoop (flushStartFilter true fl0) k0
                            (dumpRecords (flushStartFilter true fl0) k0)).fl with
                          groups := 0 }
                        (flushRecsLoop (flushStartFilter true fl0) k0
                          (dumpRecords (flushStartFilter true fl0) k0)).k
                        (dumpRecords
                          { (flushRecsLoop (flushStartFilter true fl0) k0
                              (dumpRecords (flushStartFilter true fl0) k0)).fl with
                            groups := 0 }
                          (flushRecsLoop (flushStartFilter true fl0) k0
                            (dumpRecords (flushStartFilter true fl0) k0)).k)).evs ++
                      [Ev.dumpEnd Conn.main])), ?_, ?_⟩
              · simp [ipnh_flush, flushDumpLoop_eq_recs, hof, h1, h2, hgr, h4, h5,
                  flushRecsLoop_rc0]
              · intro e he
                rcases List.mem_append.mp he with he | he
                · exact midMem_pass _ _ _ e he
                · exact midMem_pass _ _ _ e he
              · simp [ipnh_flush, flushDumpLoop_eq_recs, hof, h1, h2, hgr, h4, h5,
                  flushRecsLoop_rc0]
              · intro e he
                rcases List.mem_append.mp he with he | he
                · exact midMem_pass _ _ _ e he
                · exact midMem_pass _ _ _ e he
        · have hallF : all = false := by
            cases all
            · rfl
            · exact absurd rfl hallT
          subst hallF
          refine ⟨Ev.dumpStart Conn.main
              (nh_dump_filter (flushStartFilter false fl0)) ::
            ((flushRecsLoop (flushStartFilter false fl0) k0
                (dumpRecords (flushStartFilter false fl0) k0)).evs ++
              [Ev.dumpEnd Conn.main]), ?_, midMem_pass _ _ _⟩
          simp [ipnh_flush, flushDumpLoop_eq_recs, hof, h1, h2,
            flushRecsLoop_rc0]

/-- Every flush run either succeeds (rc 0, no diagnostics) or fails a
transport step (nonzero rc together with a diagnostic on stderr). -/
theorem ipnh_flush_cases (env : FlushEnv) (all : Bool) (fl0 : NhFilter)
    (k0 : Kernel) :
    ((ipnh_flush env all fl0 k0).rc = 0 ∧
      (ipnh_flush env all fl0 k0).stderrLines = []) ∨
    ((ipnh_flush env all fl0 k0).rc ≠ 0 ∧
      (ipnh_flush env all fl0 k0).stderrLines ≠ []) := by
  by_cases hof : env.openFail = true
  · right; constructor <;> simp [ipnh_flush, hof]
  · replace hof : env.openFail = false := by simpa using hof
    by_cases h1 : env.dumpReqFail 0 = true
    · right; constructor <;> simp [ipnh_flush, hof, h1]
    · replace h1 : env.dumpReqFail 0 = false := by simpa using h1
      by_cases h2 : env.dumpFail 0 = true
      · right
        constructor <;>
          simp [ipnh_flush, flushDumpLoop_eq_recs, hof, h1, h2]
      · replace h2 : env.dumpFail 0 = false := by simpa using h2
        by_cases hallT : all = true
        · subst hallT
          by_cases hgr : (flushRecsLoop (flushStartFilter true fl0) k0
              (dumpRecords (flushStartFilter true fl0) k0)).fl.groups = 0
          · left
            constructor <;>
              simp [ipnh_flush, flushDumpLoop_eq_recs, hof, h1, h2, hgr,
                flushRecsLoop_rc0]
          · by_cases h4 : env.dumpReqFail 1 = true
            · right
              constructor <;>
                simp [ipnh_flush, flushDumpLoop_eq_recs, hof, h1, h2, hgr, h4,
                  flushRecsLoop_rc0]
            · replace h4 : env.dumpReqFail 1 = false := by simpa using h4
              by_cases h5 : env.dumpFail 1 = true
              · right
                constructor <;>
                  simp [ipnh_flush, flushDumpLoop_eq_recs, hof, h1, h2, hgr,
                    h4, h5, flushRecsLoop_rc0]
              · replace h5 : env.dumpFail 1 = false := by simpa using h5
                left
                constructor <;>
                  simp [ipnh_flush, flushDumpLoop_eq_recs, hof, h1, h2, hgr,
                    h4, h5, flushRecsLoop_rc0]
        · have hallF : all = false := by
            cases all
            · rfl
            · exact absurd rfl hallT
          subst hallF
          left
          constructor <;>
            simp [ipnh_flush, flushDumpLoop_eq_recs, hof, h1, h2,
              flushRecsLoop_rc0]

/-! ## Helper lemmas -/

theorem mapME_length_get {α β ε : Type} (f : α → Except ε β) :
    ∀ (xs : List α) (ys : List β), mapME f xs = .ok ys →
      ys.length = xs.length ∧
      ∀ i (hx : i < xs.length) (hy : i < ys.length),
        f (xs.get ⟨i, hx⟩) = .ok (ys.get ⟨i, hy⟩) := by
  intro xs
  induction xs with
  | nil =>
    intro ys h
    simp only [mapME] at h
    cases h
    exact ⟨rfl, fun i hx hy => absurd hx (Nat.not_lt_zero i)⟩
  | cons x xs ih =>
    intro ys h
    simp only [mapME] at h
    cases hfx : f x with
    | error e => rw [hfx] at h; cases h
    | ok y =>
      rw [hfx] at h
      cases hrec : mapME f xs with
      | error e => rw [hrec] at h; cases h
      | ok ys2 =>
        rw [hrec] at h
        cases h
        obtain ⟨hlen, hget⟩ := ih ys2 hrec
        refine ⟨by simp [hlen], ?_⟩
        intro i hx hy
        cases i with
        | zero => simpa using hfx
        | succ j =>
          exact hget j (Nat.lt_of_succ_lt_succ hx) (Nat.lt_of_succ_lt_succ hy)

theorem get_unsigned_le {cs : List Char} {v : Nat} (h : get_unsigned cs = some v) :
    v ≤ UINT_MAX := by
  unfold get_unsigned at h
  split at h
  · cases h
  · split at h
    · cases h; assumption
    · cases h

/-- The claims' flush-all scenario: nexthop 1 is a group referencing
nexthop 2, nexthop 2 is a plain nexthop. -/
def demoK : Kernel :=
  [{ id := 1, isGroup := true, members := [2] }, { id := 2 }]

/-- A table where deleting nexthop 5 fails (still referenced by group 7)
while deleting group 7 succeeds. -/
def demoK2 : Kernel :=
  [{ id := 5 }, { id := 7, isGroup := true, members := [5] }]

/-! ## Claim theorems -/

/-- C5: parsing "5,2/7/9,10" yields members (5,w=2),(7,w=1),(9,w=10) in
exactly that order; the parser maps the i-th '/'-segment to the i-th
output member for every input (it never reorders); a missing weight
defaults to 1 (wire value 0); weight 0 and 257 are rejected as
user-input errors; an accepted weight w in 1..256 is encoded as w-1 and
a decoded member's weight is the wire value plus 1, so 256 round-trips
through wire value 255. -/
theorem group_list_parse_order_weights :
    add_nh_group_attr "5,2/7/9,10" = .ok [⟨5, 1⟩, ⟨7, 0⟩, ⟨9, 9⟩] ∧
    print_nh_group [⟨5, 1⟩, ⟨7, 0⟩, ⟨9, 9⟩] =
      .members [⟨5, some 2⟩, ⟨7, none⟩, ⟨9, some 10⟩] ∧
    List.map memberWeight
      [(⟨5, some 2⟩ : PrintedMember), ⟨7, none⟩, ⟨9, some 10⟩] = [2, 1, 10] ∧
    (∀ s grps, add_nh_group_attr s = .ok grps →
      grps.length = (splitOnChar '/' s.data).length ∧
      ∀ i (hx : i < (splitOnChar '/' s.data).length) (hy : i < grps.length),
        parseGroupSeg ((splitOnChar '/' s.data).get ⟨i, hx⟩) =
          .ok (grps.get ⟨i, hy⟩)) ∧
    add_nh_group_attr "5,0/7" = .error .invalidWeight ∧
    add_nh_group_attr "5,257/7" = .error .invalidWeight ∧
    (∀ w, w = 0 ∨ w > 256 → nh_group_weight w = .error .invalidWeight) ∧
    (∀ w, 1 ≤ w → w ≤ 256 → nh_group_weight w = .ok (w - 1)) ∧
    (∀ g : NexthopGrp, memberWeight (printMember g) = g.weight + 1) ∧
    parseGroupSeg "3,256".data = .ok ⟨3, 255⟩ ∧
    printMember ⟨3, 255⟩ = ⟨3, some 256⟩ := by
  refine ⟨rfl, rfl, rfl, ?_, rfl, rfl, ?_, ?_, ?_, rfl, rfl⟩
  · intro s grps h
    have h2 : mapME parseGroupSeg (splitOnChar '/' s.data) = .ok grps := by
      by_cases he : s.data.isEmpty
      · simp [add_nh_group_attr, he] at h
      · simpa [add_nh_group_attr, he] using h
    exact mapME_length_get parseGroupSeg _ _ h2
  · intro w hw
    simp [nh_group_weight, if_pos hw]
  · intro w h1 h2
    have hn : ¬ (w = 0 ∨ w > 256) := by omega
    simp [nh_group_weight, if_neg hn]
  · intro g
    by_cases h : g.weight = 0 <;> simp [printMember, memberWeight, h]

/-- Witness for the quantified parts of `group_list_parse_order_weights`,
at the concrete inputs of the claim. -/
theorem group_list_parse_order_weights_witness :
    ([⟨5, 1⟩, ⟨7, 0⟩, ⟨9, 9⟩] : List NexthopGrp).length =
      (splitOnChar '/' ("5,2/7/9,10".data)).length ∧
    nh_group_weight 257 = .error .invalidWeight ∧
    nh_group_weight 256 = .ok 255 ∧
    memberWeight (printMember ⟨9, 9⟩) = 10 :=
  ⟨(group_list_parse_order_weights.2.2.2.1 "5,2/7/9,10" _
      group_list_parse_order_weights.1).1,
   group_list_parse_order_weights.2.2.2.2.2.2.1 257 (Or.inr (by decide)),
   group_list_parse_order_weights.2.2.2.2.2.2.2.1 256 (by decide) (by decide),
   group_list_parse_order_weights.2.2.2.2.2.2.2.2.1 ⟨9, 9⟩⟩

/-- C4 (code-bug evaluation): the guard in `parse_nh_group_type_res` is
the literal C test `v >= ~0UL / 100`; on LP64 `~0UL / 100` is
(2^64−1)/100, far above `UINT_MAX`, so the guard never fires for any
value `get_unsigned` can produce: every parsed idle-timer token is
accepted and the emitted tick count is the wrapped 32-bit product.  In
particular the raw value 50000000, which the claim says must be rejected
(it is ≥ (2^32−1)/100), is accepted and encoded as 705032704 ticks, not
50000000·100. -/
theorem res_idle_timer_guard_dead :
    (∀ tok v, get_unsigned tok.data = some v →
      resLoop ["idle_timer", tok] =
        .ok ([(NHA_RES_GROUP_IDLE_TIMER, .u32 (v * 100 % U32_MOD))], [])) ∧
    resLoop ["idle_timer", "50000000"] =
      .ok ([(NHA_RES_GROUP_IDLE_TIMER, .u32 705032704)], []) ∧
    (50000000 ≥ (2 ^ 32 - 1) / 100 ∧ 50000000 ≤ UINT_MAX) ∧
    705032704 ≠ 50000000 * 100 := by
  refine ⟨?_, rfl, by decide, by decide⟩
  intro tok v h
  have hle : v ≤ UINT_MAX := get_unsigned_le h
  have hguard : ¬ v ≥ ULONG_MAX / 100 := by
    have : UINT_MAX < ULONG_MAX / 100 := by decide
    omega
  simp only [resLoop, h, if_neg hguard]

/-- Witness for the quantified part of `res_idle_timer_guard_dead` at the
failing input. -/
theorem res_idle_timer_guard_dead_witness :
    resLoop ["idle_timer", "50000000"] =
      .ok ([(NHA_RES_GROUP_IDLE_TIMER, .u32 (50000000 * 100 % U32_MOD))], []) :=
  res_idle_timer_guard_dead.1 "50000000" 50000000 rfl

/-- C8 (code-bug evaluation): a bucket reply with wire index 3, raw idle
ticks 500 and owner id 42 decodes its nested fields exactly as the claim
says (index 3, owner 42, idle time 5.0 seconds at 100 ticks/second), but
the deleted flag is false even for the bucket delete-notification kind:
print_nexthop_bucket (ip/ipnexthop.c:442) compares `nlmsg_type` against
RTM_DELNEXTHOP, which the guard at line 424 makes unreachable, so the
flag can never be set. -/
theorem bucket_decode_deleted_flag :
    print_nexthop_bucket
      { nlmsgType := RTM_DELNEXTHOPBUCKET, payloadLen := 4, nhProtocol := 0,
        attrs := [(NHA_ID, .u32 9),
          (NHA_RES_BUCKET, .nest
            [(NHA_RES_BUCKET_INDEX, .u16 3),
             (NHA_RES_BUCKET_IDLE_TIME, .u64 500),
             (NHA_RES_BUCKET_NH_ID, .u32 42)])] } =
      (0, some
        { deleted := false, id := some 9,
          bucket := some { index := some 3, idleTime := some (5, 0), nhid := some 42 } }) ∧
    jiffiesToTv 500 = (5, 0) ∧
    RTM_DELNEXTHOPBUCKET ≠ RTM_DELNEXTHOP :=
  ⟨rfl, rfl, by decide⟩

/-- C3: under the default preferred family the request's family starts
unresolved; a device clause (with an existing device) and the
blackhole/unreachable/prohibit clauses default an unresolved family to
IPv4; a via clause resolves it to its address's family; a subsequent via
clause whose address family differs from the resolved family fails with
the family-mismatch error, and a failed build hands nothing to the
transport — in particular `via 10.0.0.1 ... via fe80::1` is rejected
with zero attribute bytes committed. -/
theorem modify_family_resolution :
    ipnh_modify AF_UNSPEC [] = .ok { family := AF_UNSPEC } ∧
    (∀ st d, st.family = AF_UNSPEC → d ≠ 0 →
      Except.map ModState.family (modifyStep st (.dev d)) = .ok AF_INET) ∧
    (∀ st, st.family = AF_UNSPEC →
      Except.map ModState.family (modifyStep st .blackhole) = .ok AF_INET) ∧
    (∀ st, st.family = AF_UNSPEC →
      Except.map ModState.family (modifyStep st .unreachable) = .ok AF_INET) ∧
    (∀ st, st.family = AF_UNSPEC →
      Except.map ModState.family (modifyStep st .prohibit) = .ok AF_INET) ∧
    (∀ st fam addr, st.family = AF_UNSPEC →
      Except.map ModState.family (modifyStep st (.via fam addr)) = .ok fam) ∧
    (∀ st fam addr, st.family ≠ AF_UNSPEC → st.family ≠ fam →
      modifyStep st (.via fam addr) = .error .familyMismatch) ∧
    (∀ cs e, ipnh_modify AF_UNSPEC cs = .error e →
      ipnh_modify_wire AF_UNSPEC cs = none) ∧
    ipnh_modify AF_UNSPEC
      [.via AF_INET [10, 0, 0, 1],
       .via AF_INET6 [254, 128, 0, 0, 0, 0, 0, 0, 0, 0, 0, 0, 0, 0, 0, 1]] =
      .error .familyMismatch ∧
    ipnh_modify_wire AF_UNSPEC
      [.via AF_INET [10, 0, 0, 1],
       .via AF_INET6 [254, 128, 0, 0, 0, 0, 0, 0, 0, 0, 0, 0, 0, 0, 0, 1]] =
      none := by
  refine ⟨rfl, ?_, ?_, ?_, ?_, ?_, ?_, ?_, rfl, rfl⟩
  · intro st d hst hd
    simp [modifyStep, hd, hst, Except.map]
  · intro st hst
    simp [modifyStep, hst, Except.map]
  · intro st hst
    simp [modifyStep, hst, Except.map]
  · intro st hst
    simp [modifyStep, hst, Except.map]
  · intro st fam addr hst
    simp [modifyStep, hst, Except.map]
  · intro st fam addr hst1 hst2
    simp [modifyStep, hst1, hst2]
  · intro cs e h
    simp [ipnh_modify_wire, h]

/-- Witness for the quantified parts of `modify_family_resolution`. -/
theorem modify_family_resolution_witness :
    Except.map ModState.family
      (modifyStep { family := AF_UNSPEC } (.dev 3)) = .ok AF_INET ∧
    Except.map ModState.family
      (modifyStep { family := AF_UNSPEC } .blackhole) = .ok AF_INET ∧
    Except.map ModState.family
      (modifyStep { family := AF_UNSPEC } (.via AF_INET6 [1])) = .ok AF_INET6 ∧
    modifyStep { family := AF_INET } (.via AF_INET6 [1]) =
      .error .familyMismatch ∧
    ipnh_modify_wire AF_UNSPEC
      [.via AF_INET [10, 0, 0, 1],
       .via AF_INET6 [254, 128, 0, 0, 0, 0, 0, 0, 0, 0, 0, 0, 0, 0, 0, 1]] =
      none :=
  ⟨modify_family_resolution.2.1 _ 3 rfl (by decide),
   modify_family_resolution.2.2.1 _ rfl,
   modify_family_resolution.2.2.2.2.2.1 _ AF_INET6 [1] rfl,
   modify_family_resolution.2.2.2.2.2.2.1 { family := AF_INET } AF_INET6 [1]
     (by decide) (by decide),
   modify_family_resolution.2.2.2.2.2.2.2.1 _ _
     modify_family_resolution.2.2.2.2.2.2.2.2.1⟩

/-- A well-kinded nexthop reply with a non-negative payload is never
rejected by `print_nexthop`: its return value is 0 (the record may still
be skipped by the client-side protocol filter). -/
theorem print_nexthop_ret_ok {fl : NhFilter} {m : NhMsg}
    (hkind : m.nlmsgType = RTM_NEWNEXTHOP ∨ m.nlmsgType = RTM_DELNEXTHOP)
    (hlen : 0 ≤ m.payloadLen) : (print_nexthop fl m).1 = 0 := by
  have h1 : ¬ (m.nlmsgType ≠ RTM_DELNEXTHOP ∧ m.nlmsgType ≠ RTM_NEWNEXTHOP) := by
    rcases hkind with h | h
    · exact fun hc => hc.2 h
    · exact fun hc => hc.1 h
  have h2 : ¬ (m.payloadLen < 0) := by omega
  simp only [print_nexthop, if_neg h1, if_neg h2]
  by_cases hproto : fl.proto ≠ 0 ∧ fl.proto ≠ m.nhProtocol
  · rw [if_pos hproto]
  · rw [if_neg hproto]

/-- C6: the protocol-id criterion has no wire encoding — the attributes
`nh_dump_filter` emits are the same for every value of the protocol
field — and it is applied client-side against each decoded record's
protocol: a mismatching record is dropped, neither deleted nor counted
by the flush callback, and not printed by the list decoder. -/
theorem protocol_filter_client_side :
    (∀ fl p, nh_dump_filter { fl with proto := p } = nh_dump_filter fl) ∧
    (∀ delOK fl m, 0 ≤ m.payloadLen → fl.proto ≠ 0 → m.nhProtocol ≠ fl.proto →
      flush_nexthop delOK fl m = (0, fl, none)) ∧
    (∀ fl m, (m.nlmsgType = RTM_NEWNEXTHOP ∨ m.nlmsgType = RTM_DELNEXTHOP) →
      0 ≤ m.payloadLen → fl.proto ≠ 0 → fl.proto ≠ m.nhProtocol →
      print_nexthop fl m = (0, none)) := by
  refine ⟨?_, ?_, ?_⟩
  · intro fl p
    simp [nh_dump_filter]
  · intro delOK fl m hlen hproto hne
    simp only [flush_nexthop, if_neg (show ¬ (m.payloadLen < 0) by omega)]
    rw [if_pos (And.intro hproto hne)]
  · intro fl m hkind hlen hproto hne
    have h1 : ¬ (m.nlmsgType ≠ RTM_DELNEXTHOP ∧ m.nlmsgType ≠ RTM_NEWNEXTHOP) := by
      rcases hkind with h | h
      · exact fun hc => hc.2 h
      · exact fun hc => hc.1 h
    simp only [print_nexthop, if_neg h1,
      if_neg (show ¬ (m.payloadLen < 0) by omega),
      if_pos (And.intro hproto hne)]

/-- Witness for `protocol_filter_client_side` at a concrete filter and
record. -/
theorem protocol_filter_client_side_witness :
    nh_dump_filter { proto := 186 } = nh_dump_filter ({} : NhFilter) ∧
    flush_nexthop (fun _ => true) { proto := 186 }
      { nlmsgType := RTM_NEWNEXTHOP, payloadLen := 4, nhProtocol := 3,
        attrs := [(NHA_ID, .u32 5)] } = (0, { proto := 186 }, none) ∧
    print_nexthop { proto := 186 }
      { nlmsgType := RTM_NEWNEXTHOP, payloadLen := 4, nhProtocol := 3,
        attrs := [(NHA_ID, .u32 5)] } = (0, none) :=
  ⟨protocol_filter_client_side.1 {} 186,
   protocol_filter_client_side.2.1 _ _ _ (by decide) (by decide) (by decide),
   protocol_filter_client_side.2.2 _ _ (Or.inl rfl) (by decide) (by decide)
     (by decide)⟩

/-- C10: the flush callback issues a delete request only when the dumped
message carries a nonzero id attribute value: when the extracted id is 0
(attribute absent, or present with value 0) no delete is issued, nothing
is counted and the callback returns 0 so the dump continues; when the
extracted id is nonzero and the record passes the protocol filter, a
delete for exactly that id is issued and counted only on success. -/
theorem flush_callback_requires_id :
    (∀ delOK fl m, 0 ≤ m.payloadLen → flushMsgId m = 0 →
      flush_nexthop delOK fl m = (0, fl, none)) ∧
    (∀ m, lookupAttr m.attrs NHA_ID = none → flushMsgId m = 0) ∧
    (∀ delOK fl m i, 0 ≤ m.payloadLen →
      ¬ (fl.proto ≠ 0 ∧ m.nhProtocol ≠ fl.proto) → flushMsgId m = i → i ≠ 0 →
      flush_nexthop delOK fl m =
        (0, if delOK i then { fl with flushed := fl.flushed + 1 } else fl,
         some i)) := by
  refine ⟨?_, ?_, ?_⟩
  · intro delOK fl m hlen hid
    simp only [flush_nexthop, if_neg (show ¬ (m.payloadLen < 0) by omega)]
    by_cases hproto : fl.proto ≠ 0 ∧ m.nhProtocol ≠ fl.proto
    · rw [if_pos hproto]
    · rw [if_neg hproto]
      simp [hid]
  · intro m h
    simp [flushMsgId, h]
  · intro delOK fl m i hlen hproto hid hne
    simp only [flush_nexthop, if_neg (show ¬ (m.payloadLen < 0) by omega),
      if_neg hproto]
    rw [hid, if_pos hne]
    by_cases hdel : delOK i
    · simp [hdel]
    · simp [hdel]

/-- Witness for `flush_callback_requires_id` at concrete messages: one
without an id attribute, one with id 0, one with id 7. -/
theorem flush_callback_requires_id_witness :
    flush_nexthop (fun _ => true) {}
      { nlmsgType := RTM_NEWNEXTHOP, payloadLen := 4, nhProtocol := 0,
        attrs := [] } = (0, {}, none) ∧
    flush_nexthop (fun _ => true) {}
      { nlmsgType := RTM_NEWNEXTHOP, payloadLen := 4, nhProtocol := 0,
        attrs := [(NHA_ID, .u32 0)] } = (0, {}, none) ∧
    flush_nexthop (fun _ => true) {}
      { nlmsgType := RTM_NEWNEXTHOP, payloadLen := 4, nhProtocol := 0,
        attrs := [(NHA_ID, .u32 7)] } = (0, { flushed := 1 }, some 7) :=
  ⟨flush_callback_requires_id.1 _ _ _ (by decide) rfl,
   flush_callback_requires_id.1 _ _ _ (by decide) rfl,
   by
     have h := flush_callback_requires_id.2.2 (fun _ => true) {}
       { nlmsgType := RTM_NEWNEXTHOP, payloadLen := 4, nhProtocol := 0,
         attrs := [(NHA_ID, .u32 7)] } 7 (by decide) (by simp) rfl (by decide)
     simpa using h⟩

/-- A dump run aborts at the first message the callback rejects: the
messages before it (well-kinded, well-formed) are processed, the
offending message yields the callback's -1, and everything after it is
never reached — `rtnl_dump_filter` returns the error as delivered, with
exactly the records accumulated so far (spec §5: callback failure aborts
the dump immediately, already-delivered records remain processed). -/
theorem dump_aborts_at_bad_kind (fl : NhFilter) :
    ∀ (pre : List NhMsg) (st : List NexthopRecord) (bad : NhMsg)
      (rest : List NhMsg),
      (∀ m ∈ pre,
        (m.nlmsgType = RTM_NEWNEXTHOP ∨ m.nlmsgType = RTM_DELNEXTHOP) ∧
        0 ≤ m.payloadLen) →
      bad.nlmsgType ≠ RTM_NEWNEXTHOP → bad.nlmsgType ≠ RTM_DELNEXTHOP →
      rtnl_dump_filter (printCb fl) st (pre ++ bad :: rest) =
        (-1, (rtnl_dump_filter (printCb fl) st pre).2) := by
  intro pre
  induction pre with
  | nil =>
    intro st bad rest _ hb1 hb2
    have hbad : print_nexthop fl bad = (-1, none) := by
      simp only [print_nexthop, if_pos (And.intro hb2 hb1)]
    simp [rtnl_dump_filter, printCb, hbad]
  | cons m pre ih =>
    intro st bad rest hpre hb1 hb2
    have hm := hpre m (List.mem_cons_self m pre)
    have hret : (print_nexthop fl m).1 = 0 := print_nexthop_ret_ok hm.1 hm.2
    have hstep : ∀ s, rtnl_dump_filter (printCb fl) s (m :: (pre ++ bad :: rest)) =
        rtnl_dump_filter (printCb fl) (s ++ (print_nexthop fl m).2.toList)
          (pre ++ bad :: rest) := by
      intro s
      simp [rtnl_dump_filter, printCb, hret]
    have hstep2 : rtnl_dump_filter (printCb fl) st (m :: pre) =
        rtnl_dump_filter (printCb fl) (st ++ (print_nexthop fl m).2.toList) pre := by
      simp [rtnl_dump_filter, printCb, hret]
    rw [List.cons_append, hstep, hstep2]
    exact ih _ bad rest (fun x hx => hpre x (List.mem_cons_of_mem m hx)) hb1 hb2

/-- C9 counterexample: in a dump context a message of unexpected kind
aborts the processing of the remaining messages.  With a get-kind
message followed by a decodable new-object message, the dump returns the
callback's -1 and produces no record at all, although the second message
decodes fine on its own — so the remaining stream was NOT processed. -/
theorem dump_unexpected_kind_aborts_counterexample :
    listNexthopDump {}
      [{ nlmsgType := RTM_GETNEXTHOP, payloadLen := 4, nhProtocol := 0,
         attrs := [(NHA_ID, .u32 7)] },
       { nlmsgType := RTM_NEWNEXTHOP, payloadLen := 4, nhProtocol := 0,
         attrs := [(NHA_ID, .u32 8)] }] = (-1, []) ∧
    listNexthopDump {}
      [{ nlmsgType := RTM_NEWNEXTHOP, payloadLen := 4, nhProtocol := 0,
         attrs := [(NHA_ID, .u32 8)] }] =
      (0, [{ deleted := false, id := some 8, group := none }]) :=
  ⟨rfl, rfl⟩

/-- C9 (amended): the decoder accepts only the new-object and
delete-notification kinds for the expected object class; a message of
any other kind is rejected with a diagnostic and is not decoded, in a
single-shot get this is fatal to the call, and in a dump context the
callback's failure aborts the dump at that message — records already
delivered remain processed, the messages after it are not reached. -/
theorem unexpected_kind_rejected :
    (∀ fl m, m.nlmsgType ≠ RTM_NEWNEXTHOP → m.nlmsgType ≠ RTM_DELNEXTHOP →
      print_nexthop fl m = (-1, none)) ∧
    (∀ m, m.nlmsgType ≠ RTM_NEWNEXTHOPBUCKET →
      m.nlmsgType ≠ RTM_DELNEXTHOPBUCKET → print_nexthop_bucket m = (-1, none)) ∧
    (∀ fl m, m.nlmsgType ≠ RTM_NEWNEXTHOP → m.nlmsgType ≠ RTM_DELNEXTHOP →
      ipnh_get_id fl m = -1) ∧
    (∀ fl pre bad rest,
      (∀ m ∈ pre,
        (m.nlmsgType = RTM_NEWNEXTHOP ∨ m.nlmsgType = RTM_DELNEXTHOP) ∧
        0 ≤ m.payloadLen) →
      bad.nlmsgType ≠ RTM_NEWNEXTHOP → bad.nlmsgType ≠ RTM_DELNEXTHOP →
      listNexthopDump fl (pre ++ bad :: rest) =
        (-1, (listNexthopDump fl pre).2)) := by
  have hrej : ∀ (fl : NhFilter) (m : NhMsg), m.nlmsgType ≠ RTM_NEWNEXTHOP →
      m.nlmsgType ≠ RTM_DELNEXTHOP → print_nexthop fl m = (-1, none) := by
    intro fl m h1 h2
    simp only [print_nexthop, if_pos (And.intro h2 h1)]
  refine ⟨hrej, ?_, ?_, ?_⟩
  · intro m h1 h2
    simp only [print_nexthop_bucket, if_pos (And.intro h2 h1)]
  · intro fl m h1 h2
    simp [ipnh_get_id, hrej fl m h1 h2]
  · intro fl pre bad rest hpre hb1 hb2
    exact dump_aborts_at_bad_kind fl pre [] bad rest hpre hb1 hb2

/-- Witness for `unexpected_kind_rejected` at concrete messages. -/
theorem unexpected_kind_rejected_witness :
    print_nexthop {}
      { nlmsgType := RTM_GETNEXTHOP, payloadLen := 4, nhProtocol := 0,
        attrs := [] } = (-1, none) ∧
    print_nexthop_bucket
      { nlmsgType := RTM_GETNEXTHOPBUCKET, payloadLen := 4, nhProtocol := 0,
        attrs := [] } = (-1, none) ∧
    ipnh_get_id {}
      { nlmsgType := RTM_GETNEXTHOP, payloadLen := 4, nhProtocol := 0,
        attrs := [] } = -1 ∧
    listNexthopDump {}
      [{ nlmsgType := RTM_NEWNEXTHOP, payloadLen := 4, nhProtocol := 0,
         attrs := [(NHA_ID, .u32 8)] },
       { nlmsgType := RTM_GETNEXTHOP, payloadLen := 4, nhProtocol := 0,
         attrs := [] },
       { nlmsgType := RTM_NEWNEXTHOP, payloadLen := 4, nhProtocol := 0,
         attrs := [(NHA_ID, .u32 9)] }] =
      (-1, [{ deleted := false, id := some 8, group := none }]) := by
  refine ⟨unexpected_kind_rejected.1 _ _ (by decide) (by decide),
          unexpected_kind_rejected.2.1 _ (by decide) (by decide),
          unexpected_kind_rejected.2.2.1 _ _ (by decide) (by decide), ?_⟩
  have h := unexpected_kind_rejected.2.2.2 {}
    [{ nlmsgType := RTM_NEWNEXTHOP, payloadLen := 4, nhProtocol := 0,
       attrs := [(NHA_ID, .u32 8)] }]
    { nlmsgType := RTM_GETNEXTHOP, payloadLen := 4, nhProtocol := 0,
      attrs := [] }
    [{ nlmsgType := RTM_NEWNEXTHOP, payloadLen := 4, nhProtocol := 0,
       attrs := [(NHA_ID, .u32 9)] }]
    (by intro m hm; simp at hm; rw [hm]; exact ⟨Or.inl rfl, by decide⟩)
    (by decide) (by decide)
  simpa using h

/-- C2: every per-record delete request of a flush is issued on the
dedicated `del` connection while the streaming dump runs on the distinct
`main` connection; the `del` connection is opened at the start of the
flush and closed on every exit path reached after the open (success,
dump-request failure and dump termination), with no close or re-open
anywhere in between, so both connections are live simultaneously for the
whole flush-all. -/
theorem flush_delete_uses_second_connection (env : FlushEnv) (all : Bool)
    (fl0 : NhFilter) (k0 : Kernel) :
    (∀ c i ok, Ev.request c i ok ∈ (ipnh_flush env all fl0 k0).evs →
      c = Conn.del) ∧
    (∀ c attrs, Ev.dumpStart c attrs ∈ (ipnh_flush env all fl0 k0).evs →
      c = Conn.main) ∧
    Conn.del ≠ Conn.main ∧
    (env.openFail = false → ∃ mid,
      (ipnh_flush env all fl0 k0).evs =
        Ev.openConn Conn.del :: mid ++ [Ev.closeConn Conn.del] ∧
      (∀ c, Ev.closeConn c ∉ mid) ∧ (∀ c, Ev.openConn c ∉ mid)) ∧
    (env.openFail = true → (ipnh_flush env all fl0 k0).evs = []) := by
  obtain ⟨hshape1, hshape2⟩ := ipnh_flush_evs_shape env all fl0 k0
  refine ⟨?_, ?_, fun h => Conn.noConfusion h, ?_, hshape1⟩
  · intro c i ok hmem
    by_cases hof : env.openFail = true
    · rw [hshape1 hof] at hmem
      cases hmem
    · replace hof : env.openFail = false := by simpa using hof
      obtain ⟨mid, hevs, hmid⟩ := hshape2 hof
      rw [hevs] at hmem
      rcases List.mem_cons.mp hmem with h | h
      · exact Ev.noConfusion h
      · rcases List.mem_append.mp h with h | h
        · rcases hmid _ h with ⟨i2, ok2, heq⟩ | ⟨attrs, heq⟩ | heq
          · injection heq with hc h2 h3
          · exact Ev.noConfusion heq
          · exact Ev.noConfusion heq
        · exact Ev.noConfusion (List.mem_singleton.mp h)
  · intro c attrs hmem
    by_cases hof : env.openFail = true
    · rw [hshape1 hof] at hmem
      cases hmem
    · replace hof : env.openFail = false := by simpa using hof
      obtain ⟨mid, hevs, hmid⟩ := hshape2 hof
      rw [hevs] at hmem
      rcases List.mem_cons.mp hmem with h | h
      · exact Ev.noConfusion h
      · rcases List.mem_append.mp h with h | h
        · rcases hmid _ h with ⟨i2, ok2, heq⟩ | ⟨attrs2, heq⟩ | heq
          · exact Ev.noConfusion heq
          · injection heq with hc h2
          · exact Ev.noConfusion heq
        · exact Ev.noConfusion (List.mem_singleton.mp h)
  · intro hof
    obtain ⟨mid, hevs, hmid⟩ := hshape2 hof
    refine ⟨mid, hevs, ?_, ?_⟩
    · intro c hc
      rcases hmid _ hc with ⟨i, ok, heq⟩ | ⟨attrs, heq⟩ | heq
      · exact Ev.noConfusion heq
      · exact Ev.noConfusion heq
      · exact Ev.noConfusion heq
    · intro c hc
      rcases hmid _ hc with ⟨i, ok, heq⟩ | ⟨attrs, heq⟩ | heq
      · exact Ev.noConfusion heq
      · exact Ev.noConfusion heq
      · exact Ev.noConfusion heq

/-- Witness for `flush_delete_uses_second_connection` at a concrete run:
the open/close bracketing holds for the claims' flush-all scenario. -/
theorem flush_delete_uses_second_connection_witness :
    ∃ mid, (ipnh_flush envOK true {} demoK).evs =
      Ev.openConn Conn.del :: mid ++ [Ev.closeConn Conn.del] ∧
      (∀ c, Ev.closeConn c ∉ mid) ∧ (∀ c, Ev.openConn c ∉ mid) :=
  (flush_delete_uses_second_connection envOK true {} demoK).2.2.2.1 rfl

/-- C7: during a flush a failed individual delete is non-fatal — the
record loop still attempts a delete for every later record passing the
filters, never aborts (return value 0), and counts exactly the
successful deletes; a failure of the dump itself is fatal — the whole
flush stops with rc -2 after a single dump and a diagnostic; every run
either succeeds with rc 0 and no diagnostics or fails a transport step
with nonzero rc and a diagnostic, and a zero count is reported as
"Nothing to flush", distinct from the nonzero-count report; concretely,
on a table where deleting nexthop 5 fails (still referenced by group 7),
the flush continues, deletes 7, reports count 1 and succeeds. -/
theorem flush_failure_semantics :
    (∀ recs fl k r, r ∈ recs → r.id ≠ 0 →
      (fl.proto = 0 ∨ r.protocol = fl.proto) →
      ∃ ok, Ev.request Conn.del r.id ok ∈ (flushRecsLoop fl k recs).evs) ∧
    (∀ recs fl k, (flushRecsLoop fl k recs).rc = 0) ∧
    (∀ recs fl k, (flushRecsLoop fl k recs).fl.flushed =
      fl.flushed + List.countP isOkRequest (flushRecsLoop fl k recs).evs) ∧
    (∀ all fl0 k0,
      (ipnh_flush { dumpFail := fun _ => true } all fl0 k0).rc = -2 ∧
      List.countP isDumpStart
        (ipnh_flush { dumpFail := fun _ => true } all fl0 k0).evs = 1 ∧
      (ipnh_flush { dumpFail := fun _ => true } all fl0 k0).stderrLines =
        ["Dump terminated. Failed to flush nexthops"]) ∧
    (∀ env all fl0 k0,
      ((ipnh_flush env all fl0 k0).rc = 0 ∧
        (ipnh_flush env all fl0 k0).stderrLines = []) ∨
      ((ipnh_flush env all fl0 k0).rc ≠ 0 ∧
        (ipnh_flush env all fl0 k0).stderrLines ≠ [])) ∧
    (∀ fl, fl.flushed = 0 → flushReport fl = "Nothing to flush") ∧
    (∀ fl, fl.flushed ≠ 0 →
      flushReport fl = "Flushed " ++ toString fl.flushed ++ " nexthops" ∧
      flushReport fl ≠ "Nothing to flush") ∧
    requestsOf (ipnh_flush envOK false {} demoK2).evs =
      [(5, false), (7, true)] ∧
    (ipnh_flush envOK false {} demoK2).fl.flushed = 1 ∧
    (ipnh_flush envOK false {} demoK2).rc = 0 := by
  refine ⟨fun recs fl k r => flushRecsLoop_attempts recs fl k r,
    fun recs fl k => (flushRecsLoop_spec recs fl k).1,
    fun recs fl k => (flushRecsLoop_spec recs fl k).2.2.2.2.2.2.2.2,
    ?_, ipnh_flush_cases, ?_, ?_, rfl, rfl, rfl⟩
  · intro all fl0 k0
    have hds : List.countP isDumpStart
        (flushRecsLoop (flushStartFilter all fl0) k0
          (dumpRecords (flushStartFilter all fl0) k0)).evs = 0 := by
      rw [List.countP_eq_zero]
      intro e he
      obtain ⟨i, ok, rfl⟩ := flushRecsLoop_evs_form e he
      simp [isDumpStart]
    refine ⟨?_, ?_, ?_⟩ <;>
      simp [ipnh_flush, flushDumpLoop_eq_recs, hds, isDumpStart,
        List.countP_cons, List.countP_append]
  · intro fl h
    simp [flushReport, h]
  · intro fl h
    constructor
    · simp [flushReport, h]
    · simp only [flushReport, if_neg h]
      intro hcon
      have hlen := congrArg String.length hcon
      rw [String.length_append, String.length_append] at hlen
      have h1 : ("Flushed ").length = 8 := rfl
      have h2 : (" nexthops").length = 9 := rfl
      have h3 : ("Nothing to flush").length = 16 := rfl
      omega

/-- Witness for the quantified parts of `flush_failure_semantics`. -/
theorem flush_failure_semantics_witness :
    (∃ ok, Ev.request Conn.del 5 ok ∈
      (flushRecsLoop {} demoK2 demoK2).evs) ∧
    (ipnh_flush { dumpFail := fun _ => true } true {} demoK).rc = -2 ∧
    flushReport {} = "Nothing to flush" ∧
    flushReport { flushed := 2 } ≠ "Nothing to flush" :=
  ⟨flush_failure_semantics.1 demoK2 {} demoK2 { id := 5 }
      (List.mem_cons_self _ _) (by decide) (Or.inl rfl),
   (flush_failure_semantics.2.2.2.1 true {} demoK).1,
   flush_failure_semantics.2.2.2.2.2.1 {} rfl,
   (flush_failure_semantics.2.2.2.2.2.2.1 { flushed := 2 } (by decide)).2⟩

/-- C1: flush-all proceeds in two passes: pass 1 sends a dump request
with the groups-only filter encoded and deletes every returned record
passing the client-side protocol filter; pass 2 re-dumps with the
groups-only constraint cleared (the protocol constraint retained both on
the filter and client-side) and deletes again.  On a well-formed kernel
table every pass-1 delete request targets a group nexthop and every
pass-2 delete request targets a non-group nexthop, so every group
nexthop is deleted before any singular nexthop deletion is attempted;
and on the scenario {nexthop 1 = group referencing nexthop 2, nexthop 2
= plain} the run deletes 1 then 2 and reports a count of 2. -/
theorem flush_all_two_passes (fl0 : NhFilter) (k0 : Kernel)
    (hWF : KernelWF k0) :
    (∃ evs1 evs2,
      (ipnh_flush envOK true fl0 k0).evs =
        Ev.openConn Conn.del ::
          (Ev.dumpStart Conn.main (nh_dump_filter (flushAllFilter fl0)) ::
            (evs1 ++
              (Ev.dumpEnd Conn.main ::
                (Ev.dumpStart Conn.main
                    (nh_dump_filter { flushAllFilter fl0 with groups := 0 }) ::
                  (evs2 ++ [Ev.dumpEnd Conn.main, Ev.closeConn Conn.del]))))) ∧
      (NHA_GROUPS, AttrVal.flag) ∈ nh_dump_filter (flushAllFilter fl0) ∧
      (∀ v, (NHA_GROUPS, v) ∉
        nh_dump_filter { flushAllFilter fl0 with groups := 0 }) ∧
      (∀ i ok, Ev.request Conn.del i ok ∈ evs1 → isGroupId k0 i) ∧
      (∀ i ok, Ev.request Conn.del i ok ∈ evs2 → ¬ isGroupId k0 i) ∧
      (∀ r ∈ dumpRecords (flushAllFilter fl0) k0,
        (fl0.proto = 0 ∨ r.protocol = fl0.proto) →
        Ev.request Conn.del r.id true ∈ evs1)) ∧
    (ipnh_flush envOK true {} demoK).fl.flushed = 2 ∧
    requestsOf (ipnh_flush envOK true {} demoK).evs = [(1, true), (2, true)] ∧
    (ipnh_flush envOK true {} demoK).rc = 0 := by
  obtain ⟨hWFid, hWFdist, hWFref⟩ := hWF
  refine ⟨?_, rfl, rfl, rfl⟩
  have hspec1 := flushRecsLoop_spec (dumpRecords (flushAllFilter fl0) k0)
    (flushAllFilter fl0) k0
  have hgr : ¬ (flushRecsLoop (flushAllFilter fl0) k0
      (dumpRecords (flushAllFilter fl0) k0)).fl.groups = 0 := by
    rw [flushRecsLoop_groups]
    simp [flushAllFilter]
  have hfl2eq : nh_dump_filter
      { (flushRecsLoop (flushAllFilter fl0) k0
          (dumpRecords (flushAllFilter fl0) k0)).fl with groups := 0 } =
      nh_dump_filter { flushAllFilter fl0 with groups := 0 } := by
    apply nh_dump_filter_congr
    · exact hspec1.2.2.2.1
    · rfl
    · exact hspec1.2.2.2.2.1
    · exact hspec1.2.2.2.2.2.1
  have hrecs1 : ∀ r ∈ dumpRecords (flushAllFilter fl0) k0,
      r ∈ k0 ∧ r.isGroup = true := by
    intro r hr
    have h := dumpRecords_flushAll_mem.mp hr
    exact ⟨h.1, h.2.1⟩
  have hdelAll := flushRecsLoop_deletes (dumpRecords (flushAllFilter fl0) k0)
    (flushAllFilter fl0) k0
    (fun r hr => hWFid r (hrecs1 r hr).1)
    (hWFdist.sublist (List.filter_sublist k0))
    (fun r hr => ⟨r, (hrecs1 r hr).1, rfl⟩)
    (fun r hr x hx => hWFref x hx r (hrecs1 r hr).1 (hrecs1 r hr).2)
  refine ⟨(flushRecsLoop (flushAllFilter fl0) k0
      (dumpRecords (flushAllFilter fl0) k0)).evs,
    (flushRecsLoop
        { (flushRecsLoop (flushAllFilter fl0) k0
            (dumpRecords (flushAllFilter fl0) k0)).fl with groups := 0 }
        (flushRecsLoop (flushAllFilter fl0) k0
          (dumpRecords (flushAllFilter fl0) k0)).k
        (dumpRecords
          { (flushRecsLoop (flushAllFilter fl0) k0
              (dumpRecords (flushAllFilter fl0) k0)).fl with groups := 0 }
          (flushRecsLoop (flushAllFilter fl0) k0
            (dumpRecords (flushAllFilter fl0) k0)).k)).evs,
    ?_, ?_, ?_, ?_, ?_, ?_⟩
  · simp [ipnh_flush, flushDumpLoop_eq_recs, flushStartFilter, envOK, hgr,
      flushRecsLoop_rc0, hfl2eq]
  · rw [nh_dump_filter_flushAll]
    exact List.mem_cons_self _ _
  · intro v
    rw [nh_dump_filter_pass2]
    exact noGroupsAttr_fdbPart fl0 v
  · intro i ok hmem
    obtain ⟨r, ok2, hr, heq, hid, hproto⟩ := hspec1.2.2.2.2.2.2.2.1 _ hmem
    simp only [Ev.request.injEq] at heq
    obtain ⟨-, hieq, -⟩ := heq
    obtain ⟨hrk0, hrg⟩ := hrecs1 r hr
    exact ⟨r, hrk0, hieq.symm, hrg⟩
  · intro i ok hmem hgid
    have hspec2 := flushRecsLoop_spec
      (dumpRecords
        { (flushRecsLoop (flushAllFilter fl0) k0
            (dumpRecords (flushAllFilter fl0) k0)).fl with groups := 0 }
        (flushRecsLoop (flushAllFilter fl0) k0
          (dumpRecords (flushAllFilter fl0) k0)).k)
      { (flushRecsLoop (flushAllFilter fl0) k0
          (dumpRecords (flushAllFilter fl0) k0)).fl with groups := 0 }
      (flushRecsLoop (flushAllFilter fl0) k0
        (dumpRecords (flushAllFilter fl0) k0)).k
    obtain ⟨r, ok2, hr, heq, hid, hproto2⟩ := hspec2.2.2.2.2.2.2.2.1 _ hmem
    simp only [Ev.request.injEq] at heq
    obtain ⟨-, hieq, -⟩ := heq
    obtain ⟨nh, hnhk0, hnhid, hnhg⟩ := hgid
    have hro1 := dumpRecords_mem.mp hr
    have hrk0 : r ∈ k0 := (hspec1.2.2.2.2.2.2.1).subset hro1.1
    have hrnh : r = nh :=
      pairwise_id_inj hWFdist r hrk0 nh hnhk0 (by rw [hnhid, hieq])
    have hrg : r.isGroup = true := by rw [hrnh]; exact hnhg
    have hmatch2 : kernelMatchAttrs (nhFdbPart fl0) r = true := by
      have h := hro1.2
      rwa [hfl2eq, nh_dump_filter_pass2] at h
    have hr1 : r ∈ dumpRecords (flushAllFilter fl0) k0 :=
      dumpRecords_flushAll_mem.mpr ⟨hrk0, hrg, hmatch2⟩
    have hpeq : ({ (flushRecsLoop (flushAllFilter fl0) k0
        (dumpRecords (flushAllFilter fl0) k0)).fl with
          groups := 0 } : NhFilter).proto = (flushAllFilter fl0).proto :=
      hspec1.2.2.1
    rw [hpeq] at hproto2
    have hgone := (hdelAll r hr1 hproto2).2 r hro1.1
    exact hgone rfl
  · intro r hr hproto
    exact (hdelAll r hr hproto).1

/-- Witness for `flush_all_two_passes`: the scenario run, with the
kernel well-formedness hypothesis discharged on the concrete table. -/
theorem flush_all_two_passes_witness :
    (ipnh_flush envOK true {} demoK).fl.flushed = 2 ∧
    requestsOf (ipnh_flush envOK true {} demoK).evs = [(1, true), (2, true)] :=
  ⟨(flush_all_two_passes {} demoK
      ⟨by decide, by decide, by decide⟩).2.1,
   (flush_all_two_passes {} demoK
      ⟨by decide, by decide, by decide⟩).2.2.1⟩
